import Mathlib

/-!
Verification development for a Windows disk-cleanup pipeline.

The definitions below are a shallow embedding of the program's core modules:
`core/rules.py`, `core/scanner.py`, `core/cleaner.py`, `core/ai_local_advisor.py`,
`core/payload_builder.py` and `core/ai_client.py`.  Pure Python functions become
Lean functions; the filesystem, the trash service and the network are passed in
explicitly as data.  Paths are modelled as the `str(Path(...))` string form the
program itself manipulates (Windows separators, case preserved); Python's
`str.lower()` is modelled for the ASCII range, which covers every constant the
program compares against.
-/

namespace Spec2Proof

/-! ## String helpers (Python `str.lower`, `startswith`, `in`, `endswith`) -/

/-- ASCII lowercase of one character, as Python `str.lower()` acts on the
ASCII letters occurring in the program's path constants. -/
def lowerChar (c : Char) : Char :=
  if 65 ≤ c.toNat ∧ c.toNat ≤ 90 then Char.ofNat (c.toNat + 32) else c

/-- The character list of a string. -/
def chars (s : String) : List Char := s.data

/-- Lowercased character list of a string (Python `s.lower()`). -/
def lowerOf (s : String) : List Char := s.data.map lowerChar

/-- `startsWithL needle hay` is Python `hay.startswith(needle)`. -/
def startsWithL : List Char → List Char → Bool
  | [], _ => true
  | _ :: _, [] => false
  | a :: as, b :: bs => a == b && startsWithL as bs

/-- `hasSub needle hay` is Python `needle in hay` (substring test). -/
def hasSub (needle : List Char) : List Char → Bool
  | [] => startsWithL needle []
  | h :: t => startsWithL needle (h :: t) || hasSub needle t

/-- `endsWithL needle hay` is Python `hay.endswith(needle)`. -/
def endsWithL (needle hay : List Char) : Bool :=
  startsWithL needle.reverse hay.reverse

/-! ## core/rules.py -/

/-- Protected system roots (`SYSTEM_FORBIDDEN_DIRS`, src/core/rules.py:18-24).
The source builds them as `Path(r"C:\\Windows\\System32")` etc.; the raw-string
literals carry doubled backslashes which `WindowsPath.__str__` collapses to a
single separator, so these are the effective string forms the program compares
against. -/
def SYSTEM_FORBIDDEN_DIRS : List String :=
  [ "C:\\Windows\\System32"
  , "C:\\Windows\\WinSxS"
  , "C:\\Program Files"
  , "C:\\Program Files (x86)"
  , "C:\\System Volume Information"
  ]

/-- `is_forbidden` (src/core/rules.py:94-96):
`any(str(normalized).lower().startswith(str(root).lower()) for root in SYSTEM_FORBIDDEN_DIRS)`. -/
def is_forbidden (path : String) : Bool :=
  SYSTEM_FORBIDDEN_DIRS.any (fun root => startsWithL (lowerOf root) (lowerOf path))

/-- C10: `is_forbidden path` is true iff the lowercase string form of `path`
starts with one of exactly the five fixed prefixes
`c:\windows\system32`, `c:\windows\winsxs`, `c:\program files`,
`c:\program files (x86)`, `c:\system volume information`; consequently
`C:\Windows\Temp\x.tmp` (directly under `C:\Windows` but not under the two
protected `Windows` subtrees) is not forbidden, while the plain string test
also marks the sibling directory `C:\Program Files Custom` as forbidden. -/
theorem c10_is_forbidden_iff :
    (∀ p : String,
      is_forbidden p = true ↔
        (startsWithL (chars "c:\\windows\\system32") (lowerOf p) = true ∨
         startsWithL (chars "c:\\windows\\winsxs") (lowerOf p) = true ∨
         startsWithL (chars "c:\\program files") (lowerOf p) = true ∨
         startsWithL (chars "c:\\program files (x86)") (lowerOf p) = true ∨
         startsWithL (chars "c:\\system volume information") (lowerOf p) = true)) ∧
    is_forbidden "C:\\Windows\\Temp\\x.tmp" = false ∧
    is_forbidden "C:\\Program Files Custom\\a.txt" = true := by
  refine ⟨fun p => ?_, by decide, by decide⟩
  have e1 : lowerOf "C:\\Windows\\System32" = chars "c:\\windows\\system32" := by decide
  have e2 : lowerOf "C:\\Windows\\WinSxS" = chars "c:\\windows\\winsxs" := by decide
  have e3 : lowerOf "C:\\Program Files" = chars "c:\\program files" := by decide
  have e4 : lowerOf "C:\\Program Files (x86)" = chars "c:\\program files (x86)" := by decide
  have e5 : lowerOf "C:\\System Volume Information" = chars "c:\\system volume information" := by decide
  simp only [is_forbidden, SYSTEM_FORBIDDEN_DIRS, List.any_cons, List.any_nil,
    e1, e2, e3, e4, e5, Bool.or_eq_true, Bool.or_false]

/-! ## core/scanner.py — the `ScanItem` record -/

/-- `ScanItem` (src/core/scanner.py:106-123).  Timestamps are modelled as exact
rationals standing for the Python floats returned by `time.time()`/`stat()`. -/
structure ScanItem where
  path : String
  size_bytes : Nat
  mtime : Rat
  ctime : Rat
  category : String
  rule_name : String
  rule_risk : String
  ai_level : String := "L3"
  ai_reason : String := ""
  recommended_action : String := ""
  ai_risk_notes : String := ""
  ai_confidence : Rat := 0
  ai_requires_confirmation : Bool := false
  is_recent : Bool := false
  is_forbidden : Bool := false
  is_suggestion_only : Bool := false
  deriving Repr, DecidableEq

/-! ## core/cleaner.py

The filesystem is passed in explicitly: `existing` is the set of paths for
which `Path(...).exists()` is true, and `CleanEnv` gives the outcome of the two
destructive calls — `trashErr p = none` means `send2trash` succeeds on `p`,
`some msg` means it raises an exception whose text is `msg`; `hardErr` plays
the same role for the `os.rmdir`/`Path.unlink` fallback. -/

/-- Outcomes of the two destructive services for each path. -/
structure CleanEnv where
  trashErr : String → Option String
  hardErr : String → Option String

/-- A record appended to `CleanupResult.deleted`: either
`\x7b"path": p, "bytes": b, "dry_run": True\x7d` (dry-run branch) or
`\x7b"path": p, "bytes": b, "method": m\x7d` with `m ∈ \x7b"trash", "delete"\x7d`. -/
inductive DeletedEntry where
  | real (path : String) (bytes : Nat) (method : String)
  | dryRun (path : String) (bytes : Nat)
  deriving Repr, DecidableEq

/-- A record appended to `CleanupResult.failed`. -/
structure FailedEntry where
  path : String
  error : String
  deriving Repr, DecidableEq

/-- A record appended to `CleanupResult.skipped`. -/
structure SkippedEntry where
  path : String
  reason : String
  deriving Repr, DecidableEq

/-- `CleanupResult` (src/core/cleaner.py:15-26). -/
structure CleanupResult where
  deleted : List DeletedEntry
  failed : List FailedEntry
  skipped : List SkippedEntry
  deriving Repr, DecidableEq

/-- The classification of one loop iteration of `Cleaner.clean`: exactly one
entry is appended to exactly one of the three lists. -/
inductive CleanOutcome where
  | del (e : DeletedEntry)
  | fail (e : FailedEntry)
  | skip (e : SkippedEntry)
  deriving Repr, DecidableEq

/-- One iteration of the `for item in items` loop of `Cleaner.clean`
(src/core/cleaner.py:38-63), returning the produced entry and the filesystem
after the iteration (paths removed from `existing` when a removal succeeds). -/
def cleanStep (dry_run allow_delete : Bool) (env : CleanEnv) (item : ScanItem)
    (existing : List String) : CleanOutcome × List String :=
  if item.is_suggestion_only || item.is_forbidden || is_forbidden item.path then
    (.skip ⟨item.path, "forbidden_or_suggestion"⟩, existing)
  else if ¬ existing.contains item.path then
    (.skip ⟨item.path, "missing"⟩, existing)
  else if dry_run then
    (.del (.dryRun item.path item.size_bytes), existing)
  else
    match env.trashErr item.path with
    | none => (.del (.real item.path item.size_bytes "trash"), existing.filter (· ≠ item.path))
    | some exc =>
        if allow_delete then
          match env.hardErr item.path with
          | none => (.del (.real item.path item.size_bytes "delete"), existing.filter (· ≠ item.path))
          | some inner => (.fail ⟨item.path, inner⟩, existing)
        else
          (.fail ⟨item.path, exc⟩, existing)

/-- The per-item outcome sequence of `Cleaner.clean`, in input order, with the
filesystem threaded through the iterations. -/
def cleanOutcomes (dry_run allow_delete : Bool) (env : CleanEnv) :
    List ScanItem → List String → List CleanOutcome × List String
  | [], existing => ([], existing)
  | item :: rest, existing =>
      let (o, fs1) := cleanStep dry_run allow_delete env item existing
      let (os, fs2) := cleanOutcomes dry_run allow_delete env rest fs1
      (o :: os, fs2)

/-- Collect the outcome sequence into the three result lists, preserving
append order. -/
def collectOutcomes : List CleanOutcome → CleanupResult
  | [] => ⟨[], [], []⟩
  | o :: os =>
      let r := collectOutcomes os
      match o with
      | .del e => ⟨e :: r.deleted, r.failed, r.skipped⟩
      | .fail e => ⟨r.deleted, e :: r.failed, r.skipped⟩
      | .skip e => ⟨r.deleted, r.failed, e :: r.skipped⟩

/-- `Cleaner.clean` (src/core/cleaner.py:33-64): returns the partitioned
`CleanupResult` and the filesystem after the call. -/
def clean (dry_run allow_delete : Bool) (env : CleanEnv) (items : List ScanItem)
    (existing : List String) : CleanupResult × List String :=
  let (os, fs) := cleanOutcomes dry_run allow_delete env items existing
  (collectOutcomes os, fs)

/-- Projection of an outcome onto the deleted list. -/
def outDel : CleanOutcome → Option DeletedEntry
  | .del e => some e | _ => none

/-- Projection of an outcome onto the failed list. -/
def outFail : CleanOutcome → Option FailedEntry
  | .fail e => some e | _ => none

/-- Projection of an outcome onto the skipped list. -/
def outSkip : CleanOutcome → Option SkippedEntry
  | .skip e => some e | _ => none

theorem collectOutcomes_spec (os : List CleanOutcome) :
    collectOutcomes os = ⟨os.filterMap outDel, os.filterMap outFail, os.filterMap outSkip⟩ := by
  induction os with
  | nil => rfl
  | cons o os ih =>
      cases o <;> simp [collectOutcomes, ih, List.filterMap_cons, outDel, outFail, outSkip]

theorem cleanOutcomes_length (dry_run allow_delete : Bool) (env : CleanEnv)
    (items : List ScanItem) (existing : List String) :
    (cleanOutcomes dry_run allow_delete env items existing).1.length = items.length := by
  induction items generalizing existing with
  | nil => rfl
  | cons item rest ih => simp [cleanOutcomes, ih]

theorem filterMap_length_sum (os : List CleanOutcome) :
    (os.filterMap outDel).length + (os.filterMap outFail).length
      + (os.filterMap outSkip).length = os.length := by
  induction os with
  | nil => rfl
  | cons o os ih =>
      cases o <;> simp [List.filterMap_cons, outDel, outFail, outSkip] <;> omega

/-- C2: for every input list (including the empty list) and every setting,
`Cleaner.clean` partitions the input: the outcome sequence has one entry per
candidate, the three result lists are exactly the projections of that
sequence, and `len(deleted) + len(failed) + len(skipped) = len(input)`. -/
theorem c2_clean_partition (dry_run allow_delete : Bool) (env : CleanEnv)
    (items : List ScanItem) (existing : List String) :
    (clean dry_run allow_delete env items existing).1.deleted.length
      + (clean dry_run allow_delete env items existing).1.failed.length
      + (clean dry_run allow_delete env items existing).1.skipped.length
      = items.length ∧
    (clean dry_run allow_delete env items existing).1
      = ⟨(cleanOutcomes dry_run allow_delete env items existing).1.filterMap outDel,
         (cleanOutcomes dry_run allow_delete env items existing).1.filterMap outFail,
         (cleanOutcomes dry_run allow_delete env items existing).1.filterMap outSkip⟩ := by
  have hc : (clean dry_run allow_delete env items existing).1
      = collectOutcomes (cleanOutcomes dry_run allow_delete env items existing).1 := rfl
  refine ⟨?_, by rw [hc, collectOutcomes_spec]⟩
  rw [hc, collectOutcomes_spec]
  exact (filterMap_length_sum _).trans
    (cleanOutcomes_length dry_run allow_delete env items existing)

theorem cleanOutcomes_cons (dry_run allow_delete : Bool) (env : CleanEnv)
    (x : ScanItem) (rest : List ScanItem) (fs : List String) :
    cleanOutcomes dry_run allow_delete env (x :: rest) fs
      = ((cleanStep dry_run allow_delete env x fs).1
          :: (cleanOutcomes dry_run allow_delete env rest (cleanStep dry_run allow_delete env x fs).2).1,
         (cleanOutcomes dry_run allow_delete env rest (cleanStep dry_run allow_delete env x fs).2).2) :=
  rfl

/-- C1: an item that is suggestion-only or forbidden by flag, or whose path
passes a fresh `is_forbidden` check at cleanup time, is routed by
`Cleaner.clean` to the skipped list with reason `forbidden_or_suggestion`; the
iteration leaves the filesystem untouched (nothing is trashed or deleted) and,
for every input list containing the item, the corresponding skip record is in
the returned skipped list — for every combination of `dry_run` and
`allow_delete`.  The embedded `clean` is a total function, so no exception is
raised on this path. -/
theorem c1_forbidden_always_skipped (dry_run allow_delete : Bool) (env : CleanEnv)
    (item : ScanItem) (existing : List String) (items : List ScanItem)
    (hflag : (item.is_suggestion_only || item.is_forbidden || is_forbidden item.path) = true) :
    cleanStep dry_run allow_delete env item existing
      = (.skip ⟨item.path, "forbidden_or_suggestion"⟩, existing) ∧
    (item ∈ items →
      (⟨item.path, "forbidden_or_suggestion"⟩ : SkippedEntry)
        ∈ (clean dry_run allow_delete env items existing).1.skipped) := by
  have hstepAll : ∀ fs, cleanStep dry_run allow_delete env item fs
      = (.skip ⟨item.path, "forbidden_or_suggestion"⟩, fs) := by
    intro fs; simp [cleanStep, hflag]
  refine ⟨hstepAll existing, fun hmem => ?_⟩
  have houtcomes : ∀ (l : List ScanItem) (fs : List String), item ∈ l →
      CleanOutcome.skip ⟨item.path, "forbidden_or_suggestion"⟩
        ∈ (cleanOutcomes dry_run allow_delete env l fs).1 := by
    intro l
    induction l with
    | nil => intro fs h; cases h
    | cons x rest ih =>
        intro fs h
        rw [cleanOutcomes_cons]
        rcases List.mem_cons.mp h with hx | hx
        · subst hx
          rw [hstepAll fs]
          exact List.mem_cons_self _ _
        · exact List.mem_cons_of_mem _ (ih _ hx)
  have hres : (clean dry_run allow_delete env items existing).1.skipped
      = (cleanOutcomes dry_run allow_delete env items existing).1.filterMap outSkip := by
    have hc : (clean dry_run allow_delete env items existing).1
        = collectOutcomes (cleanOutcomes dry_run allow_delete env items existing).1 := rfl
    rw [hc, collectOutcomes_spec]
  rw [hres]
  exact List.mem_filterMap.mpr ⟨_, houtcomes items existing hmem, rfl⟩

/-- Witness for C1: a concrete item under `C:\Program Files` (forbidden only by
the fresh path recheck — both flags are false) is skipped by a non-dry-run,
hard-delete-allowed cleanup. -/
theorem c1_forbidden_always_skipped_witness :
    cleanStep false true ⟨fun _ => none, fun _ => none⟩
        { path := "C:\\Program Files\\a.txt", size_bytes := 10, mtime := 0, ctime := 0,
          category := "other_files", rule_name := "r", rule_risk := "low" }
        ["C:\\Users\\u\\x.txt"]
      = (.skip ⟨"C:\\Program Files\\a.txt", "forbidden_or_suggestion"⟩, ["C:\\Users\\u\\x.txt"]) ∧
    (⟨"C:\\Program Files\\a.txt", "forbidden_or_suggestion"⟩ : SkippedEntry)
      ∈ (clean false true ⟨fun _ => none, fun _ => none⟩
          [{ path := "C:\\Program Files\\a.txt", size_bytes := 10, mtime := 0, ctime := 0,
             category := "other_files", rule_name := "r", rule_risk := "low" }]
          ["C:\\Users\\u\\x.txt"]).1.skipped := by
  have h := c1_forbidden_always_skipped false true ⟨fun _ => none, fun _ => none⟩
      { path := "C:\\Program Files\\a.txt", size_bytes := 10, mtime := 0, ctime := 0,
        category := "other_files", rule_name := "r", rule_risk := "low" }
      ["C:\\Users\\u\\x.txt"]
      [{ path := "C:\\Program Files\\a.txt", size_bytes := 10, mtime := 0, ctime := 0,
         category := "other_files", rule_name := "r", rule_risk := "low" }]
      (by decide)
  exact ⟨h.1, h.2 (by decide)⟩

/-- An outcome a dry-run iteration can produce: a skip, or a deletion record
carrying the dry-run marker. -/
def isDryOutcome : CleanOutcome → Bool
  | .del (.dryRun _ _) => true
  | .skip _ => true
  | _ => false

/-- A deleted record carrying the dry-run marker. -/
def isDryRunEntry : DeletedEntry → Bool
  | .dryRun _ _ => true
  | _ => false

theorem cleanStep_dry (allow_delete : Bool) (env : CleanEnv) (item : ScanItem)
    (fs : List String) :
    (cleanStep true allow_delete env item fs).2 = fs ∧
    isDryOutcome (cleanStep true allow_delete env item fs).1 = true := by
  unfold cleanStep
  split
  · exact ⟨rfl, rfl⟩
  · split
    · exact ⟨rfl, rfl⟩
    · simp [isDryOutcome]

theorem cleanOutcomes_dry (allow_delete : Bool) (env : CleanEnv)
    (items : List ScanItem) (fs : List String) :
    (cleanOutcomes true allow_delete env items fs).2 = fs ∧
    (cleanOutcomes true allow_delete env items fs).1.all isDryOutcome = true := by
  induction items generalizing fs with
  | nil => exact ⟨rfl, rfl⟩
  | cons x rest ih =>
      rw [cleanOutcomes_cons]
      obtain ⟨h2, h1⟩ := cleanStep_dry allow_delete env x fs
      rw [h2]
      obtain ⟨ih2, ih1⟩ := ih fs
      exact ⟨ih2, by simp [List.all_cons, h1, ih1]⟩

theorem dry_filterMap_fail (os : List CleanOutcome) (h : os.all isDryOutcome = true) :
    os.filterMap outFail = [] := by
  induction os with
  | nil => rfl
  | cons o os ih =>
      rw [List.all_cons, Bool.and_eq_true] at h
      cases o with
      | fail e => simp [isDryOutcome] at h
      | del e => simpa [List.filterMap_cons, outFail] using ih h.2
      | skip e => simpa [List.filterMap_cons, outFail] using ih h.2

theorem dry_filterMap_del (os : List CleanOutcome) (h : os.all isDryOutcome = true) :
    (os.filterMap outDel).all isDryRunEntry = true := by
  induction os with
  | nil => rfl
  | cons o os ih =>
      rw [List.all_cons, Bool.and_eq_true] at h
      cases o with
      | fail e => simpa [List.filterMap_cons, outDel] using ih h.2
      | skip e => simpa [List.filterMap_cons, outDel] using ih h.2
      | del e =>
          cases e with
          | real p b m => simp [isDryOutcome] at h
          | dryRun p b =>
              simp only [List.filterMap_cons, outDel, List.all_cons, Bool.and_eq_true]
              exact ⟨rfl, ih h.2⟩

/-- C5: in dry-run mode `Cleaner.clean` takes no destructive action: the
filesystem after the call equals the filesystem before it (no path that exists
before the call is removed), nothing is recorded as failed, every deleted
record carries the dry-run marker, and every candidate that is not skipped is
recorded in the deleted list (deleted and skipped together exhaust the
input). -/
theorem c5_dry_run_frame (allow_delete : Bool) (env : CleanEnv)
    (items : List ScanItem) (existing : List String) :
    (clean true allow_delete env items existing).2 = existing ∧
    (clean true allow_delete env items existing).1.failed = [] ∧
    (clean true allow_delete env items existing).1.deleted.all isDryRunEntry = true ∧
    (clean true allow_delete env items existing).1.deleted.length
      + (clean true allow_delete env items existing).1.skipped.length = items.length := by
  obtain ⟨hfs, hall⟩ := cleanOutcomes_dry allow_delete env items existing
  have hc : (clean true allow_delete env items existing).1
      = collectOutcomes (cleanOutcomes true allow_delete env items existing).1 := rfl
  have hfail : (clean true allow_delete env items existing).1.failed = [] := by
    rw [hc, collectOutcomes_spec]; exact dry_filterMap_fail _ hall
  refine ⟨hfs, hfail, ?_, ?_⟩
  · rw [hc, collectOutcomes_spec]; exact dry_filterMap_del _ hall
  · have hsum : (clean true allow_delete env items existing).1.deleted.length
        + (clean true allow_delete env items existing).1.failed.length
        + (clean true allow_delete env items existing).1.skipped.length = items.length := by
      rw [hc, collectOutcomes_spec]
      exact (filterMap_length_sum _).trans
        (cleanOutcomes_length true allow_delete env items existing)
    rw [hfail] at hsum
    simpa using hsum

/-! ## core/scanner.py — extension tables, keyword families, classifier -/

def IMAGE_RASTER_EXT : List String :=
  [".jpg", ".jpeg", ".png", ".gif", ".bmp", ".webp", ".heic", ".avif", ".tif", ".tiff", ".ico"]
def IMAGE_VECTOR_EXT : List String := [".svg", ".eps", ".ai"]
def IMAGE_RAW_EXT : List String := [".raw", ".cr2", ".cr3", ".nef", ".arw", ".dng", ".orf", ".rw2"]

def VIDEO_STANDARD_EXT : List String :=
  [".mp4", ".mkv", ".avi", ".mov", ".wmv", ".flv", ".webm", ".m4v", ".ts"]
def VIDEO_PRODUCTION_EXT : List String := [".m2ts", ".mts", ".r3d", ".braw", ".dav", ".prores"]

def AUDIO_LOSSY_EXT : List String := [".mp3", ".aac", ".ogg", ".m4a", ".wma", ".opus"]
def AUDIO_LOSSLESS_EXT : List String := [".flac", ".wav", ".ape", ".alac", ".aiff"]

def DOC_WORD_EXT : List String := [".doc", ".docx", ".odt", ".wps", ".rtf"]
def DOC_SPREADSHEET_EXT : List String := [".xls", ".xlsx", ".csv", ".tsv", ".ods", ".numbers"]
def DOC_PRESENTATION_EXT : List String := [".ppt", ".pptx", ".odp", ".key"]
def DOC_PDF_EXT : List String := [".pdf"]
def DOC_TEXT_EXT : List String := [".txt", ".md", ".markdown"]
def DOC_STRUCTURED_EXT : List String :=
  [".json", ".xml", ".yaml", ".yml", ".toml", ".ini", ".conf", ".cfg"]

def ARCHIVE_EXT : List String := [".zip", ".rar", ".7z", ".tar", ".gz", ".bz2", ".xz", ".zst"]
def DISK_IMAGE_EXT : List String := [".iso", ".img", ".dmg"]

def SOURCE_CODE_EXT : List String :=
  [".py", ".js", ".ts", ".tsx", ".jsx", ".java", ".go", ".rs", ".c", ".cpp", ".h", ".hpp",
   ".cs", ".php", ".rb", ".swift", ".kt", ".sql", ".html", ".css", ".scss", ".vue"]

def SCRIPT_EXT : List String := [".bat", ".cmd", ".ps1", ".sh", ".vbs", ".ahk"]

def DATABASE_EXT : List String :=
  [".db", ".sqlite", ".sqlite3", ".mdb", ".accdb", ".edb", ".db-wal", ".db-shm"]
def VIRTUAL_MACHINE_EXT : List String := [".vhd", ".vhdx", ".vdi", ".vmdk", ".qcow2"]

def INSTALLER_EXT : List String := [".msi", ".msix", ".appx", ".cab", ".pkg"]
def EXECUTABLE_EXT : List String := [".exe", ".dll", ".sys", ".ocx", ".drv"]
def FONT_EXT : List String := [".ttf", ".otf", ".woff", ".woff2"]

def GAME_PATH_KEYWORDS : List String :=
  ["\\steam\\", "\\epic games\\", "\\riot games\\", "\\blizzard\\", "\\battle.net\\",
   "\\minecraft\\", "\\games\\", "\\hoyoverse\\", "\\genshin impact\\"]

def BROWSER_PATH_KEYWORDS : List String :=
  ["\\chrome\\", "\\edge\\", "\\firefox\\", "\\browser\\", "\\msedge\\"]
def BROWSER_PROFILE_KEYWORDS : List String :=
  ["\\indexeddb\\", "\\local storage\\", "\\service worker\\", "\\session storage\\",
   "\\extension state\\", "\\cache storage\\", "\\cookies\\"]
def CHAT_PATH_KEYWORDS : List String :=
  ["\\wechat\\", "\\tencent files\\", "\\qq\\", "\\ding", "\\feishu\\", "\\discord\\",
   "\\telegram\\", "\\whatsapp\\"]
def PACKAGE_CACHE_KEYWORDS : List String :=
  ["\\pip\\cache\\", "\\npm-cache\\", "\\yarn\\cache\\", "\\nuget\\cache\\"]

/-- Membership of an extension (as a character list) in one of the tables
(Python `ext in SET`). -/
def memExt (ext : List Char) (table : List String) : Bool :=
  table.any (fun s => s.data == ext)

/-- Python `any(k in path_str for k in kws)`. -/
def anyKeyword (kws : List String) (path_str : List Char) : Bool :=
  kws.any (fun k => hasSub (chars k) path_str)

/-- A character that is not a Windows path separator. -/
def notSep (c : Char) : Bool := c ≠ '\\' && c ≠ '/'

/-- `PurePath.name`: the last path component (text after the final separator). -/
def lastComponent (l : List Char) : List Char :=
  (l.reverse.takeWhile notSep).reverse

/-- `PurePath.suffix`: `name[i:]` for `i = name.rfind('.')` when
`0 < i < len(name) - 1`, else the empty string. -/
def suffixOf (name : List Char) : List Char :=
  let tail := name.reverse.takeWhile (fun c => c ≠ '.')
  if tail.length < name.length then
    let i := name.length - tail.length - 1
    if 0 < i ∧ i < name.length - 1 then name.drop i else []
  else []

/-- `Scanner._classify_path` (src/core/scanner.py:285-397): the legacy-alias
fallback table.  The Python dict literal repeats the keys `browser_cache` and
`large_files` with identical values; the deduplicated table is equivalent. -/
def fallback_map : List (String × String) :=
  [ ("system_files", "system_core_files")
  , ("windows_update_cache", "windows_update_cache")
  , ("game_data", "game_data")
  , ("temporary_files", "temporary_files")
  , ("software_cache", "app_runtime_cache")
  , ("browser_cache", "browser_cache_files")
  , ("log_and_dump_files", "application_log_files")
  , ("image_files", "image_raster_files")
  , ("video_files", "video_standard_files")
  , ("audio_files", "audio_lossy_files")
  , ("document_files", "document_text_files")
  , ("archive_files", "archive_files")
  , ("source_code_files", "source_code_files")
  , ("database_files", "database_files")
  , ("installer_packages", "installer_packages")
  , ("software_files", "software_runtime_files")
  , ("system_cache", "windows_update_cache")
  , ("large_files", "large_files")
  , ("other_files", "other_files")
  , ("temp", "temporary_files")
  , ("cache", "app_runtime_cache")
  , ("logs", "application_log_files")
  ]

/-- First-match association lookup (Python dict `.get` on a literal whose keys,
after deduplication, are distinct). -/
def lookupStr (k : String) : List (String × String) → Option String
  | [] => none
  | (k', v) :: rest => if k' == k then some v else lookupStr k rest

/-- `Scanner._classify_path` (src/core/scanner.py:285-397).  The Python
`if ...: return c` chain is transcribed branch for branch; the browser block
(lines 304-308) has no `else`, so a browser-keyword path matching neither the
profile keywords nor a cache substring falls through to the later branches. -/
def classify_path (path : String) (fallback : String) : String :=
  let path_str := lowerOf path
  let file_name := lastComponent path_str
  let ext := suffixOf file_name
  if startsWithL (chars "c:\\windows\\") path_str || hasSub (chars "\\system32\\") path_str
      || memExt ext [".dll", ".sys", ".mui", ".cat"] then "system_core_files"
  else if hasSub (chars "softwaredistribution\\download") path_str then "windows_update_cache"
  else if hasSub (chars "\\windows\\system32\\driverstore\\") path_str
      || memExt ext [".inf", ".pnf"] then "driver_packages"
  else if hasSub (chars "\\windows\\temp\\") path_str then "system_temp_files"
  else if anyKeyword GAME_PATH_KEYWORDS path_str then "game_data"
  else if anyKeyword CHAT_PATH_KEYWORDS path_str then "chat_media_data"
  else if hasSub (chars "appdata\\local\\temp") path_str
      || endsWithL (chars ".tmp") path_str then "temporary_files"
  else if anyKeyword BROWSER_PATH_KEYWORDS path_str
      && anyKeyword BROWSER_PROFILE_KEYWORDS path_str then "browser_profile_data"
  else if anyKeyword BROWSER_PATH_KEYWORDS path_str
      && (hasSub (chars "cache") path_str || hasSub (chars "code cache") path_str
          || hasSub (chars "gpucache") path_str) then "browser_cache_files"
  else if hasSub (chars "thumbcache") file_name
      || (hasSub (chars "\\microsoft\\windows\\explorer\\") path_str
          && memExt ext [".db", ".db-wal", ".db-shm"]) then "thumbnail_cache_files"
  else if anyKeyword PACKAGE_CACHE_KEYWORDS path_str then "package_manager_cache"
  else if hasSub (chars "\\crashdumps\\") path_str || ext == chars ".dmp" then "crash_dump_files"
  else if hasSub (chars "\\logs\\") path_str || memExt ext [".log", ".etl"] then "application_log_files"
  else if memExt ext IMAGE_RAW_EXT then "image_raw_files"
  else if memExt ext IMAGE_VECTOR_EXT then "image_vector_files"
  else if memExt ext IMAGE_RASTER_EXT then "image_raster_files"
  else if memExt ext VIDEO_PRODUCTION_EXT then "video_production_files"
  else if memExt ext VIDEO_STANDARD_EXT then "video_standard_files"
  else if memExt ext AUDIO_LOSSLESS_EXT then "audio_lossless_files"
  else if memExt ext AUDIO_LOSSY_EXT then "audio_lossy_files"
  else if memExt ext DOC_SPREADSHEET_EXT then "spreadsheet_documents"
  else if memExt ext DOC_PRESENTATION_EXT then "presentation_documents"
  else if memExt ext DOC_WORD_EXT then "word_documents"
  else if memExt ext DOC_PDF_EXT then "pdf_documents"
  else if memExt ext DOC_STRUCTURED_EXT then "structured_data_documents"
  else if memExt ext DOC_TEXT_EXT then "document_text_files"
  else if memExt ext ARCHIVE_EXT then "archive_files"
  else if memExt ext DISK_IMAGE_EXT then "disk_image_files"
  else if memExt ext DATABASE_EXT then "database_files"
  else if memExt ext VIRTUAL_MACHINE_EXT then "virtual_machine_files"
  else if memExt ext SOURCE_CODE_EXT then "source_code_files"
  else if memExt ext SCRIPT_EXT then "script_files"
  else if memExt ext INSTALLER_EXT
      || (ext == chars ".exe" && hasSub (chars "setup") file_name) then "installer_packages"
  else if memExt ext EXECUTABLE_EXT then "executable_binaries"
  else if memExt ext FONT_EXT then "font_files"
  else if hasSub (chars "\\program files\\") path_str
      || hasSub (chars "\\program files (x86)\\") path_str then "software_runtime_files"
  else if hasSub (chars "cache") path_str || hasSub (chars "code cache") path_str
      || hasSub (chars "gpucache") path_str then "app_runtime_cache"
  else
    match lookupStr fallback fallback_map with
    | some v => v
    | none => if fallback == "" then "other_files" else fallback

/-! ## core/rules.py — rule catalog and matching -/

/-- `Rule` (src/core/rules.py:8-15), base paths in string form. -/
structure Rule where
  name : String
  base_paths : List String
  include_patterns : List String
  risk : String
  category : String
  description : String
  deriving Repr, DecidableEq

/-- `fnmatch`-style glob matching for the class-free patterns of the rule
catalog (`*` matches any run, `?` any single character, anything else
literally).  The recursion is driven by a fuel argument so that it is
structural; every recursive call shortens pattern or text, so
`ps.length + ts.length + 1` units of fuel always suffice. -/
def globRun : Nat → List Char → List Char → Bool
  | 0, _, _ => false
  | _ + 1, [], ts => ts.isEmpty
  | fuel + 1, '*' :: ps, ts =>
      globRun fuel ps ts ||
        (match ts with
         | [] => false
         | _ :: ts' => globRun fuel ('*' :: ps) ts')
  | _ + 1, _ :: _, [] => false
  | fuel + 1, p :: ps, t :: ts => (p == '?' || p == t) && globRun fuel ps ts

/-- Glob match with sufficient fuel. -/
def globMatch (ps ts : List Char) : Bool :=
  globRun (ps.length + ts.length + 1) ps ts

/-- `PurePath.match(pattern)` for the separator-free patterns of the rule
catalog: a case-insensitive glob match against the last path component
(Windows paths fold case). -/
def pathMatch (path : String) (pattern : String) : Bool :=
  globMatch (lowerOf pattern) (lastComponent (lowerOf path))

/-- The base-directory loop inside `match_rule` (src/core/rules.py:107-118):
each base is tried in order; a prefix miss moves to the next base, a wildcard
pattern list or any matching pattern accepts the rule. -/
def matchRuleBases (path : String) (rule : Rule) : List String → Bool
  | [] => false
  | base :: rest =>
      if ¬ startsWithL (lowerOf base) (lowerOf path) then matchRuleBases path rule rest
      else if rule.include_patterns == ["*"] then true
      else if rule.include_patterns.any
          (fun pat => pathMatch path pat || hasSub (lowerOf pat) (lowerOf path)) then true
      else matchRuleBases path rule rest

/-- `match_rule` (src/core/rules.py:106-119): first matching rule wins. -/
def match_rule (path : String) : List Rule → Option Rule
  | [] => none
  | rule :: rest => if matchRuleBases path rule rule.base_paths then some rule else match_rule path rest

/-- `build_rules` (src/core/rules.py:36-91); `home` stands for `Path.home()`,
resolved per scan. -/
def build_rules (home : String) : List Rule :=
  [ { name := "UserTemp"
    , base_paths := [home ++ "\\AppData\\Local\\Temp", "C:\\Windows\\Temp"]
    , include_patterns := ["*"]
    , risk := "low"
    , category := "temp"
    , description := "常见临时文件目录" }
  , { name := "AppCaches"
    , base_paths := [home ++ "\\AppData\\Local"]
    , include_patterns := ["*Cache*", "*Code Cache*", "*GPUCache*", "*Crashpad*", "*Logs*"]
    , risk := "low"
    , category := "cache"
    , description := "用户缓存目录" }
  , { name := "LogsAndDumps"
    , base_paths := [home, home ++ "\\AppData\\Local", home ++ "\\AppData\\Roaming"]
    , include_patterns := ["*.log", "*.dmp"]
    , risk := "low"
    , category := "logs"
    , description := "日志与转储文件" }
  , { name := "BrowserCaches"
    , base_paths :=
        [ home ++ "\\AppData\\Local\\Google\\Chrome\\User Data"
        , home ++ "\\AppData\\Local\\Microsoft\\Edge\\User Data"
        , home ++ "\\AppData\\Roaming\\Mozilla\\Firefox\\Profiles" ]
    , include_patterns := ["*Cache*", "*Code Cache*", "*GPUCache*"]
    , risk := "medium"
    , category := "browser_cache"
    , description := "浏览器缓存" }
  , { name := "WindowsUpdateCache"
    , base_paths := ["C:\\Windows\\SoftwareDistribution\\Download"]
    , include_patterns := ["*"]
    , risk := "medium"
    , category := "system_cache"
    , description := "Windows 更新下载缓存" }
  ]

/-- `suggestion_targets` (src/core/rules.py:122-128); the byte-threshold
argument is accepted and ignored exactly as in the source. -/
def suggestion_targets (_threshold_bytes : Nat) (home : String) : List String :=
  [home ++ "\\Downloads", home ++ "\\Desktop", home ++ "\\Documents"]

/-! ## core/scanner.py — the scan pass

The filesystem is passed in as data: `dirs` are the directories for which
`Path.exists()` holds, `files` the regular files with their `stat` results
(`stat` is total in the model; per-file stat errors, progress events and the
cooperative stop flag are orthogonal to the claims settled here).  `os.walk`
over a base directory is modelled as the files whose path extends `base ++ "\\"`,
in `files` order.  The directory-level forbidden pruning of the walk
(scanner.py:184-186) is subsumed, for the purpose of which items are emitted,
by the per-file `is_forbidden` recheck (scanner.py:198), because `is_forbidden`
is a prefix test and therefore closed under path extension. -/

structure FileEntry where
  path : String
  size : Nat
  mtime : Rat
  ctime : Rat
  deriving Repr, DecidableEq

structure Fs where
  dirs : List String
  files : List FileEntry
  deriving Repr, DecidableEq

/-- `RECENT_SECONDS = 60 * 60 * 24` (src/core/scanner.py:13). -/
def RECENT_SECONDS : Nat := 60 * 60 * 24

/-- The files `os.walk` reaches under `base`, in filesystem order. -/
def filesUnder (fs : Fs) (base : String) : List FileEntry :=
  fs.files.filter (fun f => startsWithL (chars (base ++ "\\")) (chars f.path))

/-- The body of the per-file loop of `Scanner.scan` (src/core/scanner.py:188-231):
forbidden recheck, match against the current rule only, recency flag,
case-insensitive dedup, item construction.  The accumulator carries the items
so far and the `seen_paths` set (as a list of lowercased paths). -/
def scanFileStep (rule : Rule) (now : Rat) (acc : List ScanItem × List (List Char))
    (f : FileEntry) : List ScanItem × List (List Char) :=
  if is_forbidden f.path then acc
  else
    match match_rule f.path [rule] with
    | none => acc
    | some _ =>
        if acc.2.contains (lowerOf f.path) then acc
        else
          (acc.1 ++ [{ path := f.path, size_bytes := f.size, mtime := f.mtime, ctime := f.ctime
                     , category := classify_path f.path rule.category
                     , rule_name := rule.name, rule_risk := rule.risk
                     , is_recent := decide ((now - f.mtime) < (RECENT_SECONDS : Rat))
                     , is_forbidden := false, is_suggestion_only := false }],
           acc.2 ++ [lowerOf f.path])

/-- The per-base loop of `Scanner.scan`: a base that does not exist is
skipped (src/core/scanner.py:173-174). -/
def scanBase (rule : Rule) (now : Rat) (fs : Fs)
    (acc : List ScanItem × List (List Char)) (base : String) :
    List ScanItem × List (List Char) :=
  if fs.dirs.contains base then (filesUnder fs base).foldl (scanFileStep rule now) acc else acc

/-- `Scanner.scan` (src/core/scanner.py:158-235): the rule-directed walk.  The
returned value is the `items` list of the `ScanResult`.  Note that `scan`
never calls `Scanner._suggestions`; the large-file sweep below is defined but
unreachable from `scan` in the source. -/
def scan (home : String) (now : Rat) (fs : Fs) : List ScanItem :=
  ((build_rules home).foldl
    (fun acc rule => rule.base_paths.foldl (scanBase rule now fs) acc) ([], [])).1

/-- `Scanner._suggestions` (src/core/scanner.py:237-283): the large-file sweep
over the user document directories (threshold `500 * 1024 * 1024` bytes). -/
def scanSuggestions (home : String) (fs : Fs) : List ScanItem :=
  (suggestion_targets (500 * 1024 * 1024) home).foldl
    (fun acc base =>
      if ¬ fs.dirs.contains base then acc
      else (filesUnder fs base).foldl
        (fun acc f =>
          if is_forbidden f.path then acc
          else if f.size < 500 * 1024 * 1024 then acc
          else acc ++ [{ path := f.path, size_bytes := f.size, mtime := f.mtime, ctime := f.ctime
                       , category := classify_path f.path "large_files"
                       , rule_name := "LargeFile", rule_risk := "suggest"
                       , is_recent := false, is_forbidden := false, is_suggestion_only := true }])
        acc)
    []

theorem foldl_preserve {α β : Type} (g : β → α → β) (P : β → Prop)
    (h : ∀ b a, P b → P (g b a)) : ∀ (l : List α) (b : β), P b → P (l.foldl g b) := by
  intro l
  induction l with
  | nil => exact fun b hb => hb
  | cons a l ih => exact fun b hb => ih _ (h b a hb)

/-- Every accumulator state reachable by the per-file loop of `Scanner.scan`
keeps `is_suggestion_only = false` on all items: the loop constructs items
with the flag literally false (src/core/scanner.py:227). -/
theorem scanFileStep_no_suggestion (rule : Rule) (now : Rat)
    (acc : List ScanItem × List (List Char)) (f : FileEntry)
    (h : acc.1.all (fun i => i.is_suggestion_only == false) = true) :
    (scanFileStep rule now acc f).1.all (fun i => i.is_suggestion_only == false) = true := by
  unfold scanFileStep
  split
  · exact h
  · split
    · exact h
    · split
      · exact h
      · simpa [List.all_append] using h

/-- The 600 MB Downloads filesystem of the C3 scenario: the user profile and
the Downloads folder exist and hold one 600 MB file with no rule-matching
name. -/
def fs600example : Fs :=
  ⟨["C:\\Users\\u", "C:\\Users\\u\\Downloads"],
   [⟨"C:\\Users\\u\\Downloads\\data.bin", 629145600, 1690000000, 1690000000⟩]⟩

/-- The suggestion item `Scanner._suggestions` would build for the 600 MB
file. -/
def item600example : ScanItem :=
  { path := "C:\\Users\\u\\Downloads\\data.bin", size_bytes := 629145600
  , mtime := 1690000000, ctime := 1690000000, category := "large_files"
  , rule_name := "LargeFile", rule_risk := "suggest"
  , is_recent := false, is_forbidden := false, is_suggestion_only := true }

/-- C3 (code bug): `Scanner.scan` performs no secondary large-file sweep.  In
the source, `scan` (src/core/scanner.py:158-235) never invokes
`Scanner._suggestions` (lines 237-283), so (first conjunct) no item returned
by `scan` ever has `is_suggestion_only = true` — for any home, clock and
filesystem — and (second conjunct) on a tree containing a 600 MB file in
Downloads, `scan` returns no item at all for it, while (third conjunct) the
orphaned `_suggestions` helper would have produced exactly the suggestion-only
`large_files` item the spec describes. -/
theorem c3_scan_never_returns_suggestions :
    (∀ (home : String) (now : Rat) (fs : Fs),
      (scan home now fs).all (fun i => i.is_suggestion_only == false) = true) ∧
    scan "C:\\Users\\u" 1700000000 fs600example = [] ∧
    scanSuggestions "C:\\Users\\u" fs600example = [item600example] := by
  refine ⟨fun home now fs => ?_, by decide, by decide⟩
  have hbase : ∀ (rule : Rule) (acc : List ScanItem × List (List Char)) (base : String),
      acc.1.all (fun i => i.is_suggestion_only == false) = true →
      (scanBase rule now fs acc base).1.all (fun i => i.is_suggestion_only == false) = true := by
    intro rule acc base h
    unfold scanBase
    split
    · exact foldl_preserve (scanFileStep rule now)
        (fun acc => acc.1.all (fun i => i.is_suggestion_only == false) = true)
        (fun b a hb => scanFileStep_no_suggestion rule now b a hb) _ acc h
    · exact h
  have hrules : ∀ (rules : List Rule) (acc : List ScanItem × List (List Char)),
      acc.1.all (fun i => i.is_suggestion_only == false) = true →
      (rules.foldl (fun acc rule => rule.base_paths.foldl (scanBase rule now fs) acc) acc).1.all
        (fun i => i.is_suggestion_only == false) = true := by
    intro rules
    exact foldl_preserve _ (fun acc => acc.1.all (fun i => i.is_suggestion_only == false) = true)
      (fun b rule hb => foldl_preserve (scanBase rule now fs)
        (fun acc => acc.1.all (fun i => i.is_suggestion_only == false) = true)
        (fun b base hb => hbase rule b base hb) _ b hb) rules
  exact hrules (build_rules home) ([], []) rfl

/-! ## Substring facts used to reason about the classifier chain -/

theorem startsWithL_iff (n l : List Char) : startsWithL n l = true ↔ n <+: l := by
  induction n generalizing l with
  | nil => simp [startsWithL]
  | cons a as ih =>
      cases l with
      | nil => simp [startsWithL]
      | cons b bs => simp [startsWithL, ih, List.cons_prefix_cons]

theorem hasSub_iff (n l : List Char) : hasSub n l = true ↔ n <:+: l := by
  induction l with
  | nil =>
      show startsWithL n [] = true ↔ _
      rw [startsWithL_iff]
      simp
  | cons b bs ih => simp [hasSub, startsWithL_iff, ih, List.infix_cons_iff]

theorem hasSub_extend (n m l : List Char) (hnm : hasSub n m = true)
    (hml : hasSub m l = true) : hasSub n l = true :=
  (hasSub_iff n l).mpr (((hasSub_iff n m).mp hnm).trans ((hasSub_iff m l).mp hml))

/-- If `n` never occurs in `l`, then no string containing `n` occurs in `l`. -/
theorem hasSub_false_of (n m l : List Char) (hnm : hasSub n m = true)
    (hnl : hasSub n l = false) : hasSub m l = false := by
  cases h : hasSub m l
  · rfl
  · exact absurd (hasSub_extend n m l hnm h) (by simp [hnl])

theorem lastComponent_suffix (l : List Char) : lastComponent l <:+ l := by
  have h : (lastComponent l).reverse <+: l.reverse := by
    simpa [lastComponent] using List.takeWhile_prefix (p := notSep) (l := l.reverse)
  simpa using h.reverse

theorem hasSub_lastComponent (n l : List Char) (h : hasSub n (lastComponent l) = true) :
    hasSub n l = true :=
  (hasSub_iff n l).mpr (((hasSub_iff n (lastComponent l)).mp h).trans
    (lastComponent_suffix l).isInfix)

/-! ## C6: browser-path `.log` files -/

/-- The C6 counterexample path: a `.log` file inside a browser cache
directory. -/
def c6cexPath : String :=
  "C:\\Users\\u\\AppData\\Local\\Google\\Chrome\\User Data\\Default\\Cache\\app.log"

/-- C6 counterexample: the claim fails as universally stated.  This path
contains a browser path keyword and its name ends in `.log`, yet
`_classify_path` returns the browser-cache category, because the browser block
(src/core/scanner.py:304-308) fires on the `cache` substring before the
log-extension branch (line 315) is reached. -/
theorem c6_browser_log_counterexample :
    anyKeyword BROWSER_PATH_KEYWORDS (lowerOf c6cexPath) = true ∧
    suffixOf (lastComponent (lowerOf c6cexPath)) = chars ".log" ∧
    classify_path c6cexPath "browser_cache" = "browser_cache_files" ∧
    "browser_cache_files" ≠ "application_log_files" := by decide

/-- C6 (amended): a file whose path contains a browser path keyword and whose
name ends in `.log` is classified `application_log_files` — not a browser
category — provided no earlier branch of the ordered precedence claims the
path: it is not under `c:\windows\` or a `system32`/update/driver/windows-temp
location, matches no game or chat keyword, is not a user-temp or `.tmp` path,
matches no browser-profile keyword, contains no `cache` substring (otherwise
the browser-cache branch fires first, as the counterexample shows), and is not
a crash-dump path. -/
theorem c6_browser_log_is_applog (path fallback : String)
    (hwin : startsWithL (chars "c:\\windows\\") (lowerOf path) = false)
    (hsys : hasSub (chars "\\system32\\") (lowerOf path) = false)
    (hupd : hasSub (chars "softwaredistribution\\download") (lowerOf path) = false)
    (hwtemp : hasSub (chars "\\windows\\temp\\") (lowerOf path) = false)
    (hgame : anyKeyword GAME_PATH_KEYWORDS (lowerOf path) = false)
    (hchat : anyKeyword CHAT_PATH_KEYWORDS (lowerOf path) = false)
    (hloc : hasSub (chars "appdata\\local\\temp") (lowerOf path) = false)
    (htmp : endsWithL (chars ".tmp") (lowerOf path) = false)
    (hbrowser : anyKeyword BROWSER_PATH_KEYWORDS (lowerOf path) = true)
    (hprof : anyKeyword BROWSER_PROFILE_KEYWORDS (lowerOf path) = false)
    (hcache : hasSub (chars "cache") (lowerOf path) = false)
    (hcrash : hasSub (chars "\\crashdumps\\") (lowerOf path) = false)
    (hext : suffixOf (lastComponent (lowerOf path)) = chars ".log") :
    classify_path path fallback = "application_log_files" := by
  have hdrv : hasSub (chars "\\windows\\system32\\driverstore\\") (lowerOf path) = false :=
    hasSub_false_of (chars "\\system32\\") _ _ (by decide) hsys
  have hcode : hasSub (chars "code cache") (lowerOf path) = false :=
    hasSub_false_of (chars "cache") _ _ (by decide) hcache
  have hgpu : hasSub (chars "gpucache") (lowerOf path) = false :=
    hasSub_false_of (chars "cache") _ _ (by decide) hcache
  have hp1 : hasSub (chars "\\pip\\cache\\") (lowerOf path) = false :=
    hasSub_false_of (chars "cache") _ _ (by decide) hcache
  have hp2 : hasSub (chars "\\npm-cache\\") (lowerOf path) = false :=
    hasSub_false_of (chars "cache") _ _ (by decide) hcache
  have hp3 : hasSub (chars "\\yarn\\cache\\") (lowerOf path) = false :=
    hasSub_false_of (chars "cache") _ _ (by decide) hcache
  have hp4 : hasSub (chars "\\nuget\\cache\\") (lowerOf path) = false :=
    hasSub_false_of (chars "cache") _ _ (by decide) hcache
  have hpkg : anyKeyword PACKAGE_CACHE_KEYWORDS (lowerOf path) = false := by
    simp [anyKeyword, PACKAGE_CACHE_KEYWORDS, hp1, hp2, hp3, hp4]
  have hthumb : hasSub (chars "thumbcache") (lastComponent (lowerOf path)) = false := by
    cases h : hasSub (chars "thumbcache") (lastComponent (lowerOf path))
    · rfl
    · have hc : hasSub (chars "cache") (lastComponent (lowerOf path)) = true :=
        hasSub_extend (chars "cache") (chars "thumbcache") _ (by decide) h
      exact absurd (hasSub_lastComponent _ _ hc) (by simp [hcache])
  have e1 : memExt (chars ".log") [".dll", ".sys", ".mui", ".cat"] = false := by decide
  have e2 : memExt (chars ".log") [".inf", ".pnf"] = false := by decide
  have e3 : memExt (chars ".log") [".db", ".db-wal", ".db-shm"] = false := by decide
  have e4 : (chars ".log" == chars ".dmp") = false := by decide
  have e5 : memExt (chars ".log") [".log", ".etl"] = true := by decide
  simp only [classify_path, hext]
  simp [hwin, hsys, hupd, hwtemp, hgame, hchat, hloc, htmp, hbrowser, hprof, hcache,
    hcrash, hdrv, hcode, hgpu, hpkg, hthumb, e1, e2, e3, e4, e5]

/-- Witness for C6 (amended): a browser-path `.log` file in a profile folder
with no `cache` segment classifies as an application log. -/
theorem c6_browser_log_is_applog_witness :
    classify_path "C:\\Users\\u\\AppData\\Local\\Google\\Chrome\\User Data\\Default\\debug.log"
      "browser_cache" = "application_log_files" :=
  c6_browser_log_is_applog
    "C:\\Users\\u\\AppData\\Local\\Google\\Chrome\\User Data\\Default\\debug.log"
    "browser_cache" (by decide) (by decide) (by decide) (by decide) (by decide) (by decide)
    (by decide) (by decide) (by decide) (by decide) (by decide) (by decide) (by decide)

/-! ## core/ai_local_advisor.py — deterministic per-item leveling -/

/-- Generic first-match association lookup (Python `dict.get` over literal
tables with distinct keys). -/
def alist {α : Type} (k : String) : List (String × α) → Option α
  | [] => none
  | (k', v) :: rest => if k' == k then some v else alist k rest

/-- `LEVEL_ORDER` (src/core/ai_local_advisor.py:11). -/
def LEVEL_ORDER : List (String × Nat) :=
  [("L1", 1), ("L2", 2), ("L3", 3), ("L4", 4), ("L5", 5)]

/-- `LEVEL_ORDER[level]` / `LEVEL_ORDER.get(level, d)`.  The direct
subscripting in `_build_item_advice` is always applied to a key that is
present, so the defaulted lookup coincides with it there. -/
def LEVEL_ORDER_get (level : String) (d : Nat) : Nat :=
  (alist level LEVEL_ORDER).getD d

/-- `_level_up` (src/core/ai_local_advisor.py:89-91). -/
def level_up (level : String) : String :=
  "L" ++ toString (min 5 (LEVEL_ORDER_get level 3 + 1))

/-- `CATEGORY_POLICY` (src/core/ai_local_advisor.py:55-86):
category ↦ (base level, rationale, risk note). -/
def CATEGORY_POLICY : List (String × (String × String × String)) :=
  [ ("temporary_files", ("L1", "用户临时文件，通常可安全清理。", "低风险。"))
  , ("system_temp_files", ("L2", "系统临时文件一般可清理。", "中低风险。"))
  , ("app_runtime_cache", ("L1", "应用运行缓存可再生。", "低风险。"))
  , ("browser_cache_files", ("L1", "浏览器缓存可再生。", "低风险。"))
  , ("thumbnail_cache_files", ("L1", "缩略图缓存可重建。", "低风险。"))
  , ("application_log_files", ("L2", "日志文件通常可清理。", "中低风险。"))
  , ("crash_dump_files", ("L2", "崩溃转储多用于排障。", "中低风险。"))
  , ("windows_update_cache", ("L2", "Windows 更新缓存通常可清理。", "中低风险。"))
  , ("package_manager_cache", ("L2", "开发包管理缓存可重新下载。", "中低风险。"))
  , ("archive_files", ("L3", "压缩文件可能是备份或安装包。", "中风险。"))
  , ("disk_image_files", ("L3", "磁盘镜像体积大且可能复用。", "中风险。"))
  , ("installer_packages", ("L3", "旧安装包通常可清理。", "中风险。"))
  , ("large_files", ("L3", "大文件可释放明显空间。", "中风险。"))
  , ("image_raw_files", ("L4", "RAW 原片通常是源素材。", "高风险。"))
  , ("video_production_files", ("L4", "视频制作素材通常不可再生。", "高风险。"))
  , ("audio_lossless_files", ("L3", "无损音频体积较大但可能重要。", "中风险。"))
  , ("database_files", ("L4", "数据库文件可能包含关键数据。", "高风险。"))
  , ("virtual_machine_files", ("L5", "虚拟机镜像是完整环境。", "极高风险。"))
  , ("browser_profile_data", ("L4", "浏览器配置/站点数据可能含登录态。", "高风险。"))
  , ("chat_media_data", ("L4", "聊天软件数据可能包含历史记录和附件。", "高风险。"))
  , ("word_documents", ("L4", "文本文档/Word 可能是工作资料。", "高风险。"))
  , ("spreadsheet_documents", ("L4", "表格文档可能包含关键业务数据。", "高风险。"))
  , ("presentation_documents", ("L4", "演示文稿可能为业务资产。", "高风险。"))
  , ("pdf_documents", ("L4", "PDF 可能为合同或归档文档。", "高风险。"))
  , ("source_code_files", ("L4", "源代码通常属于核心资产。", "高风险。"))
  , ("script_files", ("L4", "脚本可能参与自动化流程。", "高风险。"))
  , ("executable_binaries", ("L4", "二进制文件可能是程序运行组件。", "高风险。"))
  , ("software_runtime_files", ("L5", "程序目录文件不应批量删除。", "极高风险。"))
  , ("system_core_files", ("L5", "系统核心文件不应清理。", "极高风险。"))
  , ("driver_packages", ("L5", "驱动文件影响硬件稳定性。", "极高风险。"))
  ]

/-- `CATEGORY_POLICY.get(category, ("L3", ..., ...))`
(src/core/ai_local_advisor.py:145-148). -/
def CATEGORY_POLICY_get (category : String) : String × String × String :=
  (alist category CATEGORY_POLICY).getD ("L3", "该类别需要人工核验。", "中风险。")

/-- The level produced by the category/forbidden/rule-risk/suggestion steps of
`_build_item_advice` (src/core/ai_local_advisor.py:145-162) — everything
before the recency step. -/
def levelPreRecent (item : ScanItem) : String :=
  let l0 := (CATEGORY_POLICY_get item.category).1
  let l1 := if item.is_forbidden then "L5" else l0
  let l2 := if item.rule_risk == "medium" && l1 == "L1" then "L2" else l1
  let l3 := if item.rule_risk == "forbidden" then "L5" else l2
  let l4 := if item.rule_risk == "suggest" && decide (LEVEL_ORDER_get l3 3 < 3) then "L3" else l3
  if item.is_suggestion_only && decide (LEVEL_ORDER_get l4 3 < 3) then "L3" else l4

/-- The recency step of `_build_item_advice` (src/core/ai_local_advisor.py:163-164):
`if item.is_recent and LEVEL_ORDER[level] <= 2: level = _level_up(level)`. -/
def levelPostRecent (item : ScanItem) : String :=
  if item.is_recent && decide (LEVEL_ORDER_get (levelPreRecent item) 3 ≤ 2) then
    level_up (levelPreRecent item)
  else levelPreRecent item

/-- The rationale/risk-note pair before the Windows-directory override
(src/core/ai_local_advisor.py:145-153). -/
def reasonRiskPre (item : ScanItem) : String × String :=
  let p := CATEGORY_POLICY_get item.category
  if item.is_forbidden then ("受保护路径。", "极高风险。") else (p.2.1, p.2.2)

/-- `round(x, 2)` on the exact rational value (round half to even; the
binary-float representation error of Python floats is not modelled). -/
def roundTo2 (q : Rat) : Rat :=
  let n := q * 100
  let f : Int := ⌊n⌋
  let r := n - f
  let i : Int := if r < 1/2 then f else if 1/2 < r then f + 1 else if f % 2 = 0 then f else f + 1
  (i : Rat) / 100

/-- The per-item advice record built by `_build_item_advice`
(src/core/ai_local_advisor.py:189-200). -/
structure AdviceRec where
  item_id : Nat
  target : String
  file_name : String
  level : String
  confidence : Rat
  reason : String
  risk_notes : String
  recommended_action : String
  requires_confirmation : Bool
  estimated_savings_bytes : Nat
  deriving Repr, DecidableEq

/-- `_build_item_advice` (src/core/ai_local_advisor.py:144-200). -/
def build_item_advice (item : ScanItem) (item_id : Nat) : AdviceRec :=
  let level0 := levelPostRecent item
  let rr := reasonRiskPre item
  let path_lower := lowerOf item.path
  let isWin := startsWithL (chars "c:\\windows\\") path_lower
      && !(hasSub (chars "temp") path_lower) && decide (LEVEL_ORDER_get level0 3 < 5)
  let level := if isWin then "L5" else level0
  let reason := if isWin then "Windows 系统目录文件。" else rr.1
  let risk_notes := if isWin then "极高风险。" else rr.2
  let action :=
    if level == "L1" then "可直接清理"
    else if level == "L2" then "建议关闭相关软件后清理"
    else if level == "L3" then "建议备份或确认后再清理"
    else if level == "L4" then "仅在人工确认后清理"
    else "建议保留，不执行自动清理"
  let base0 : Rat :=
    (alist level
      [("L1", (0.95 : Rat)), ("L2", (0.88 : Rat)), ("L3", (0.78 : Rat)),
       ("L4", (0.68 : Rat)), ("L5", (0.96 : Rat))]).getD (0.75 : Rat)
  let base1 := if item.is_recent then max (0.55 : Rat) (base0 - (0.1 : Rat)) else base0
  let base2 := if item.rule_risk == "suggest" then max (0.5 : Rat) (base1 - (0.08 : Rat)) else base1
  { item_id := item_id
  , target := item.path
  , file_name := String.mk (lastComponent (chars item.path))
  , level := level
  , confidence := roundTo2 base2
  , reason := reason
  , risk_notes := risk_notes
  , recommended_action := action
  , requires_confirmation := level == "L4" || level == "L5"
  , estimated_savings_bytes := item.size_bytes }

/-- The C4 counterexample item: a freshly modified archive in Downloads —
recent, base level `L3` from the category policy. -/
def c4cexItem : ScanItem :=
  { path := "C:\\Users\\u\\Downloads\\a.zip", size_bytes := 1000, mtime := 0, ctime := 0
  , category := "archive_files", rule_name := "r", rule_risk := "low", is_recent := true }

/-- C4 counterexample: the claim fails as stated.  This recent item enters the
recency step at `L3`, and the code (src/core/ai_local_advisor.py:163) raises
only when the current level is at most `L2`, so the final level stays `L3`
instead of the claimed `L4 = _level_up(L3)`. -/
theorem c4_recent_escalation_counterexample :
    c4cexItem.is_recent = true ∧
    levelPreRecent c4cexItem = "L3" ∧
    levelPostRecent c4cexItem = "L3" ∧
    level_up "L3" = "L4" ∧
    (build_item_advice c4cexItem 0).level = "L3" := by decide

/-- The C4 scenario item: a recent user temp file (category base `L1`). -/
def c4tmpItem : ScanItem :=
  { path := "C:\\Users\\u\\AppData\\Local\\Temp\\a.tmp", size_bytes := 1000, mtime := 0, ctime := 0
  , category := "temporary_files", rule_name := "UserTemp", rule_risk := "low", is_recent := true }

/-- C4 (amended): the recency step of `_build_item_advice` raises the level by
exactly one tier only when the level resulting from the category/rule-risk
steps is at most `L2` (so the `L5` cap of `_level_up` is never exercised by
this step); a recent item already at `L3` or higher keeps its level.  In the
particular case of a recent `temporary_files` item (base `L1`), the final
advice level is `L2`. -/
theorem c4_recent_escalation_one_tier (item : ScanItem) (hrec : item.is_recent = true) :
    (LEVEL_ORDER_get (levelPreRecent item) 3 ≤ 2 →
      levelPostRecent item = level_up (levelPreRecent item)) ∧
    (2 < LEVEL_ORDER_get (levelPreRecent item) 3 →
      levelPostRecent item = levelPreRecent item) ∧
    (build_item_advice c4tmpItem 0).level = "L2" := by
  refine ⟨fun h => ?_, fun h => ?_, by decide⟩
  · simp [levelPostRecent, hrec, decide_eq_true h]
  · have hd : decide (LEVEL_ORDER_get (levelPreRecent item) 3 ≤ 2) = false :=
      decide_eq_false (by omega)
    simp [levelPostRecent, hrec, hd]

/-- Witness for C4 (amended): the recent temp-file scenario — pre-recency
level `L1`, escalated by one tier, final advice level `L2`. -/
theorem c4_recent_escalation_one_tier_witness :
    levelPostRecent c4tmpItem = level_up (levelPreRecent c4tmpItem) ∧
    (build_item_advice c4tmpItem 0).level = "L2" :=
  ⟨(c4_recent_escalation_one_tier c4tmpItem (by decide)).1 (by decide),
   (c4_recent_escalation_one_tier c4tmpItem (by decide)).2.2⟩

/-! ## A model of the JSON values the payload builder, advisory client and
reconciliation manipulate.

Arrays and objects carry their own list types so that every recursive
function below is structural (and therefore evaluates inside the kernel).
Python `int` is `num`; Python `float` is `flo`, modelled as an exact rational
(the binary-float representation error and Python's shortest-roundtrip float
repr are not modelled — no settled claim serializes a float).  Object fields
keep insertion order, as Python dicts do. -/

mutual
inductive Json where
  | null
  | bool (b : Bool)
  | num (n : Int)
  | flo (q : Rat)
  | str (s : String)
  | arr (items : JsonList)
  | obj (fields : JsonFields)
inductive JsonList where
  | nil
  | cons (hd : Json) (tl : JsonList)
inductive JsonFields where
  | nil
  | cons (key : String) (val : Json) (tl : JsonFields)
end

/-- Array literal helper. -/
def toJL : List Json → JsonList
  | [] => .nil
  | x :: xs => .cons x (toJL xs)

/-- Object literal helper. -/
def toJF : List (String × Json) → JsonFields
  | [] => .nil
  | (k, v) :: xs => .cons k v (toJF xs)

def jlLength : JsonList → Nat
  | .nil => 0
  | .cons _ tl => 1 + jlLength tl

def jlTake : Nat → JsonList → JsonList
  | 0, _ => .nil
  | _, .nil => .nil
  | n + 1, .cons x tl => .cons x (jlTake n tl)

def jlAppendOne : JsonList → Json → JsonList
  | .nil, x => .cons x .nil
  | .cons y tl, x => .cons y (jlAppendOne tl x)

def jlGet : JsonList → Nat → Option Json
  | .nil, _ => none
  | .cons x _, 0 => some x
  | .cons _ tl, n + 1 => jlGet tl n

def jlSet : JsonList → Nat → Json → JsonList
  | .nil, _, _ => .nil
  | .cons _ tl, 0, v => .cons v tl
  | .cons x tl, n + 1, v => .cons x (jlSet tl n v)

/-- Python `d.get(k)` on an object (first occurrence; dict keys are unique). -/
def getKey : JsonFields → String → Option Json
  | .nil, _ => none
  | .cons k v tl, key => if k == key then some v else getKey tl key

/-- Python `d.get(k, default)`. -/
def getKeyD (fs : JsonFields) (key : String) (d : Json) : Json :=
  (getKey fs key).getD d

/-- Python `d[k] = v`: replace in place if the key exists (keeping its
position), else append. -/
def objSet : JsonFields → String → Json → JsonFields
  | .nil, key, v => .cons key v .nil
  | .cons k w tl, key, v =>
      if k == key then .cons k v tl else .cons k w (objSet tl key v)

/-- Python `d.setdefault(k, v)`. -/
def objSetDefault (fs : JsonFields) (key : String) (v : Json) : JsonFields :=
  match getKey fs key with
  | some _ => fs
  | none => objSet fs key v

/-- Python truthiness of a JSON value. -/
def pyBool : Json → Bool
  | .null => false
  | .bool b => b
  | .num n => n != 0
  | .flo q => q != 0
  | .str s => s != ""
  | .arr xs => match xs with | .nil => false | _ => true
  | .obj fs => match fs with | .nil => false | _ => true

/-- Python `x or d`. -/
def pyOr (x d : Json) : Json := if pyBool x then x else d

def upperChar (c : Char) : Char :=
  if 97 ≤ c.toNat ∧ c.toNat ≤ 122 then Char.ofNat (c.toNat - 32) else c

/-- Python `s.upper()` (ASCII range, which covers the level tags). -/
def upperStr (s : String) : String := String.mk (s.data.map upperChar)

/-- Python `s.lower()` returning a `String`. -/
def lowerStr (s : String) : String := String.mk (lowerOf s)

/-- Decimal digits of a natural number (fuel-driven so that it is structural;
`n` units of fuel always suffice since the value shrinks ten-fold each
step). -/
def natDigits : Nat → Nat → List Char
  | 0, _ => []
  | fuel + 1, n =>
      if n < 10 then [Char.ofNat (48 + n)]
      else natDigits fuel (n / 10) ++ [Char.ofNat (48 + n % 10)]

/-- Python `str(int)`. -/
def intRepr (n : Int) : List Char :=
  match n with
  | .ofNat m => natDigits (m + 1) m
  | .negSucc m => '-' :: natDigits (m + 2) (m + 1)

/-- Placeholder repr for floats (see the module comment: float serialization
is not modelled; no settled claim reaches this). -/
def floReprChars (q : Rat) : List Char := intRepr q.num ++ '/' :: natDigits (q.den + 1) q.den

/-- `int(x)` on a JSON value: `none` models the `TypeError`/`ValueError` the
Python call raises (booleans are `int` subclasses in Python; underscore
digit-grouping in strings is not modelled). -/
def intCoerce : Json → Option Int
  | .num n => some n
  | .flo q => some q.floor
  | .bool b => some (if b then 1 else 0)
  | .str s => intParse (s.data.dropWhile (· == ' ')) |>.bind
      (fun p => if p.2.dropWhile (· == ' ') = [] then some p.1 else none)
  | _ => none
where
  /-- Parse an optionally signed digit run, returning the value and the rest. -/
  intParse : List Char → Option (Int × List Char)
    | [] => none
    | '-' :: rest => (digitsParse rest 0 false).map (fun p => (-(p.1 : Int), p.2))
    | '+' :: rest => (digitsParse rest 0 false).map (fun p => ((p.1 : Int), p.2))
    | l => (digitsParse l 0 false).map (fun p => ((p.1 : Int), p.2))
  digitsParse : List Char → Nat → Bool → Option (Nat × List Char)
    | [], acc, seen => if seen then some (acc, []) else none
    | c :: rest, acc, seen =>
        if 48 ≤ c.toNat ∧ c.toNat ≤ 57 then digitsParse rest (acc * 10 + (c.toNat - 48)) true
        else if seen then some (acc, c :: rest) else none

/-- `float(x)` wrapped in `try/except` — `_safe_float`
(src/core/ai_local_advisor.py:94-98) with default 0.0.  String parsing covers
plain decimal forms (exponent notation is not modelled). -/
def safeFloat : Json → Rat
  | .num n => (n : Rat)
  | .flo q => q
  | .bool b => if b then 1 else 0
  | .str s => (floatParse s.data).getD 0
  | _ => 0
where
  floatParse : List Char → Option Rat
    | l =>
      match intCoerce.intParse (l.dropWhile (· == ' ')) with
      | none => none
      | some (ip, rest) =>
          match rest with
          | [] => some (ip : Rat)
          | '.' :: frac =>
              match intCoerce.digitsParse (frac.dropWhile (· == ' ') |>.takeWhile (fun _ => true)) 0 false with
              | some (fv, remaining) =>
                  if remaining.dropWhile (· == ' ') = [] then
                    let digits := (frac.takeWhile (fun c => 48 ≤ c.toNat ∧ c.toNat ≤ 57)).length
                    some ((ip : Rat) + (if ip < 0 then -1 else 1) * (fv : Rat) / ((10 : Rat) ^ digits))
                  else none
              | none => none
          | rest => if rest.dropWhile (· == ' ') = [] then some (ip : Rat) else none

/-! ### Serialized size (`len(json.dumps(x, ensure_ascii=False).encode("utf-8"))`) -/

/-- UTF-8 byte length of one character. -/
def utf8Len (c : Char) : Nat :=
  if c.toNat < 0x80 then 1
  else if c.toNat < 0x800 then 2
  else if c.toNat < 0x10000 then 3
  else 4

/-- Byte length `json.dumps(..., ensure_ascii=False)` spends on one string
character: quotes and backslashes become two-character escapes, control
characters the two-character short escapes or six-character `\uXXXX` forms,
everything else its raw UTF-8 bytes. -/
def escLen (c : Char) : Nat :=
  if c = '"' ∨ c = '\\' then 2
  else if c.toNat < 32 then
    (if c = '\x08' ∨ c = '\t' ∨ c = '\n' ∨ c = '\x0c' ∨ c = '\r' then 2 else 6)
  else utf8Len c

def escLenList : List Char → Nat
  | [] => 0
  | c :: rest => escLen c + escLenList rest

/-- Byte length of a dumped string (two quotes plus escaped content). -/
def strDumpLen (s : String) : Nat := 2 + escLenList s.data

mutual
/-- Byte length of `json.dumps(v, ensure_ascii=False)` (default separators
`", "` and `": "`). -/
def dumpLen : Json → Nat
  | .null => 4
  | .bool b => if b then 4 else 5
  | .num n => (intRepr n).length
  | .flo q => (floReprChars q).length
  | .str s => strDumpLen s
  | .arr xs => 2 + jlDumpLen xs
  | .obj fs => 2 + jfDumpLen fs
def jlDumpLen : JsonList → Nat
  | .nil => 0
  | .cons x .nil => dumpLen x
  | .cons x tl => dumpLen x + 2 + jlDumpLen tl
def jfDumpLen : JsonFields → Nat
  | .nil => 0
  | .cons k v .nil => strDumpLen k + 2 + dumpLen v
  | .cons k v tl => strDumpLen k + 2 + dumpLen v + 2 + jfDumpLen tl
end

/-! ### Canonical text for the payload hash
(`json.dumps(payload, sort_keys=True)`, `ensure_ascii` default true) -/

def hexDigit (n : Nat) : Char :=
  if n < 10 then Char.ofNat (48 + n) else Char.ofNat (87 + n)

/-- One character under `json.dumps` with `ensure_ascii=True`: everything
outside `0x20..0x7E` is escaped, astral characters as surrogate pairs. -/
def escA (c : Char) : List Char :=
  if c = '"' then chars "\\\""
  else if c = '\\' then chars "\\\\"
  else if c = '\x08' then chars "\\b"
  else if c = '\t' then chars "\\t"
  else if c = '\n' then chars "\\n"
  else if c = '\x0c' then chars "\\f"
  else if c = '\r' then chars "\\r"
  else if c.toNat < 32 ∨ 127 ≤ c.toNat then
    (if c.toNat < 0x10000 then
      ['\\', 'u', hexDigit (c.toNat / 4096 % 16), hexDigit (c.toNat / 256 % 16),
       hexDigit (c.toNat / 16 % 16), hexDigit (c.toNat % 16)]
     else
      let v := c.toNat - 0x10000
      let hi := 0xd800 + v / 1024
      let lo := 0xdc00 + v % 1024
      ['\\', 'u', hexDigit (hi / 4096 % 16), hexDigit (hi / 256 % 16),
       hexDigit (hi / 16 % 16), hexDigit (hi % 16),
       '\\', 'u', hexDigit (lo / 4096 % 16), hexDigit (lo / 256 % 16),
       hexDigit (lo / 16 % 16), hexDigit (lo % 16)])
  else [c]

def escAList : List Char → List Char
  | [] => []
  | c :: rest => escA c ++ escAList rest

/-- A dumped (ASCII-escaped) string literal. -/
def strDumpA (s : String) : List Char := '"' :: escAList s.data ++ ['"']

/-- Code-point lexicographic order on strings (Python `<` used by
`sort_keys=True`). -/
def strLexLE : List Char → List Char → Bool
  | [], _ => true
  | _ :: _, [] => false
  | x :: xs, y :: ys =>
      if x.toNat < y.toNat then true
      else if y.toNat < x.toNat then false
      else strLexLE xs ys

def insertPair (p : String × List Char) : List (String × List Char) → List (String × List Char)
  | [] => [p]
  | q :: rest => if strLexLE p.1.data q.1.data then p :: q :: rest else q :: insertPair p rest

/-- Stable insertion sort of rendered fields by key. -/
def sortPairs : List (String × List Char) → List (String × List Char)
  | [] => []
  | p :: rest => insertPair p (sortPairs rest)

/-- Join rendered object fields with the default separators. -/
def joinPairs : List (String × List Char) → List Char
  | [] => []
  | [(k, v)] => strDumpA k ++ ':' :: ' ' :: v
  | (k, v) :: rest => strDumpA k ++ ':' :: ' ' :: v ++ ',' :: ' ' :: joinPairs rest

mutual
/-- The text of `json.dumps(v, sort_keys=True)` (ASCII escapes, default
separators, object keys sorted recursively).  Rendering each field's value
first and sorting the rendered pairs afterwards produces the same text as
sorting the keys first, since rendering does not change keys. -/
def dumpS : Json → List Char
  | .null => chars "null"
  | .bool b => if b then chars "true" else chars "false"
  | .num n => intRepr n
  | .flo q => floReprChars q
  | .str s => strDumpA s
  | .arr xs => '[' :: jlDumpS xs ++ [']']
  | .obj fs => '\x7b' :: joinPairs (sortPairs (renderFields fs)) ++ ['\x7d']
def jlDumpS : JsonList → List Char
  | .nil => []
  | .cons x .nil => dumpS x
  | .cons x tl => dumpS x ++ ',' :: ' ' :: jlDumpS tl
def renderFields : JsonFields → List (String × List Char)
  | .nil => []
  | .cons k v tl => (k, dumpS v) :: renderFields tl
end

/-! ### `_contains_cjk` / `_obj_has_cjk` and Python `str()` -/

/-- `_contains_cjk` (src/core/ai_local_advisor.py:110-113): a character in the
CJK unified block `一-鿿`. -/
def hasCjkStr (s : String) : Bool :=
  s.data.any (fun c => 0x4e00 ≤ c.toNat && c.toNat ≤ 0x9fff)

mutual
/-- `_obj_has_cjk` (src/core/ai_local_advisor.py:134-141): recursive CJK test
over strings, lists and dict values. -/
def jsonHasCjk : Json → Bool
  | .str s => hasCjkStr s
  | .arr xs => jlHasCjk xs
  | .obj fs => jfHasCjk fs
  | _ => false
def jlHasCjk : JsonList → Bool
  | .nil => false
  | .cons x tl => jsonHasCjk x || jlHasCjk tl
def jfHasCjk : JsonFields → Bool
  | .nil => false
  | .cons _ v tl => jsonHasCjk v || jfHasCjk tl
end

mutual
/-- Python `repr` of a parsed-JSON value, used through `str()` on non-string
values (inner-quote escaping inside string reprs is not modelled; no settled
claim reaches it). -/
def pyRepr : Json → List Char
  | .null => chars "None"
  | .bool b => if b then chars "True" else chars "False"
  | .num n => intRepr n
  | .flo q => floReprChars q
  | .str s => chars "'" ++ s.data ++ chars "'"
  | .arr xs => '[' :: pyReprList xs ++ [']']
  | .obj fs => '\x7b' :: pyReprFields fs ++ ['\x7d']
def pyReprList : JsonList → List Char
  | .nil => []
  | .cons x .nil => pyRepr x
  | .cons x tl => pyRepr x ++ ',' :: ' ' :: pyReprList tl
def pyReprFields : JsonFields → List Char
  | .nil => []
  | .cons k v .nil => chars "'" ++ k.data ++ chars "': " ++ pyRepr v
  | .cons k v tl => chars "'" ++ k.data ++ chars "': " ++ pyRepr v ++ ',' :: ' ' :: pyReprFields tl
end

/-- Python `str(x)` on a parsed-JSON value. -/
def pyStrOf : Json → String
  | .str s => s
  | v => String.mk (pyRepr v)

/-! ## core/payload_builder.py — `_auto_trim` -/

/-- One cluster record built by `PayloadBuilder._build_clusters`
(src/core/payload_builder.py:54-64). -/
structure Cluster where
  path_pattern : String
  size : Int
  count : Int
  samples : List String
  deriving Repr, DecidableEq

/-- The payload dict built by `PayloadBuilder.build`
(src/core/payload_builder.py:45-51); the `identity` entries and the three
trailing members are carried as JSON values. -/
structure Payload where
  identity : List Json
  clusters : List Cluster
  analysis_stats : Json
  user_intent : Json
  meta : Json

def clusterToJson (c : Cluster) : Json :=
  .obj (toJF
    [ ("path_pattern", .str c.path_pattern)
    , ("size", .num c.size)
    , ("count", .num c.count)
    , ("samples", .arr (toJL (c.samples.map Json.str)))
    ])

def payloadToJson (p : Payload) : Json :=
  .obj (toJF
    [ ("identity", .arr (toJL p.identity))
    , ("clusters", .arr (toJL (p.clusters.map clusterToJson)))
    , ("analysis_stats", p.analysis_stats)
    , ("user_intent", p.user_intent)
    , ("meta", p.meta)
    ])

/-- `len(json.dumps(payload, ensure_ascii=False).encode("utf-8"))`
(src/core/payload_builder.py:67). -/
def payloadSerializedLen (p : Payload) : Nat := dumpLen (payloadToJson p)

/-- The first trim step of `_auto_trim` (src/core/payload_builder.py:70-72):
every cluster's sample list is cut to `max(5, max_sample_paths // 2)`
entries. -/
def trimClusters (max_sample_paths : Nat) (p : Payload) : Payload :=
  { p with
    clusters :=
      p.clusters.map (fun c => { c with samples := c.samples.take (max 5 (max_sample_paths / 2)) }) }

/-- `PayloadBuilder._auto_trim` (src/core/payload_builder.py:66-77): under the
300,000-byte ceiling the payload passes unchanged; otherwise the cluster
samples are trimmed, the size is re-measured, and only if it still exceeds the
ceiling is the identity list cut to `max(50, max_items // 2)` entries. -/
def auto_trim (max_items max_sample_paths : Nat) (p : Payload) : Payload :=
  if payloadSerializedLen p ≤ 300000 then p
  else if payloadSerializedLen (trimClusters max_sample_paths p) ≤ 300000 then
    trimClusters max_sample_paths p
  else
    { trimClusters max_sample_paths p with
      identity := (trimClusters max_sample_paths p).identity.take (max 50 (max_items / 2)) }

theorem strDumpLen_mk (l : List Char) : strDumpLen (String.mk l) = 2 + escLenList l := rfl

theorem escLenList_replicate (n : Nat) : escLenList (List.replicate n 'a') = n := by
  induction n with
  | zero => rfl
  | succ n ih =>
      have ha : escLen 'a' = 1 := by decide
      simp only [List.replicate_succ, escLenList, ha, ih]
      omega

/-- An over-ceiling payload: one 300,100-character identity string, one
cluster with twelve short samples, a string stats member. -/
def c7bigPayload : Payload :=
  { identity := [Json.str (String.mk (List.replicate 300100 'a'))]
  , clusters := [⟨"***\\d", 0, 12, ["s", "s", "s", "s", "s", "s", "s", "s", "s", "s", "s", "s"]⟩]
  , analysis_stats := Json.str "stats"
  , user_intent := .null
  , meta := .null }

theorem c7payload_size (s : String) :
    payloadSerializedLen
      { identity := [Json.str s]
      , clusters := [⟨"***\\d", 0, 12, ["s", "s", "s", "s", "s", "s", "s", "s", "s", "s", "s", "s"]⟩]
      , analysis_stats := Json.str "stats"
      , user_intent := .null
      , meta := .null } = strDumpLen s + 217 := by
  have k1 : strDumpLen "identity" = 10 := by decide
  have k2 : strDumpLen "clusters" = 10 := by decide
  have k3 : strDumpLen "analysis_stats" = 16 := by decide
  have k4 : strDumpLen "user_intent" = 13 := by decide
  have k5 : strDumpLen "meta" = 6 := by decide
  have k6 : strDumpLen "path_pattern" = 14 := by decide
  have k7 : strDumpLen "***\\d" = 8 := by decide
  have k8 : strDumpLen "size" = 6 := by decide
  have k9 : strDumpLen "count" = 7 := by decide
  have k10 : strDumpLen "samples" = 9 := by decide
  have k11 : strDumpLen "s" = 3 := by decide
  have k12 : strDumpLen "stats" = 7 := by decide
  have n0 : (intRepr 0).length = 1 := by decide
  have n12 : (intRepr 12).length = 2 := by decide
  simp only [payloadSerializedLen, payloadToJson, clusterToJson, toJF, toJL,
    List.map, dumpLen, jlDumpLen, jfDumpLen, k1, k2, k3, k4, k5, k6,
    k7, k8, k9, k10, k11, k12, n0, n12]
  omega

theorem c7payload_trimmed_size (s : String) :
    payloadSerializedLen
      { identity := [Json.str s]
      , clusters := [⟨"***\\d", 0, 12, ["s", "s", "s", "s", "s", "s", "s", "s", "s", "s"]⟩]
      , analysis_stats := Json.str "stats"
      , user_intent := .null
      , meta := .null } = strDumpLen s + 207 := by
  have k1 : strDumpLen "identity" = 10 := by decide
  have k2 : strDumpLen "clusters" = 10 := by decide
  have k3 : strDumpLen "analysis_stats" = 16 := by decide
  have k4 : strDumpLen "user_intent" = 13 := by decide
  have k5 : strDumpLen "meta" = 6 := by decide
  have k6 : strDumpLen "path_pattern" = 14 := by decide
  have k7 : strDumpLen "***\\d" = 8 := by decide
  have k8 : strDumpLen "size" = 6 := by decide
  have k9 : strDumpLen "count" = 7 := by decide
  have k10 : strDumpLen "samples" = 9 := by decide
  have k11 : strDumpLen "s" = 3 := by decide
  have k12 : strDumpLen "stats" = 7 := by decide
  have n0 : (intRepr 0).length = 1 := by decide
  have n12 : (intRepr 12).length = 2 := by decide
  simp only [payloadSerializedLen, payloadToJson, clusterToJson, toJF, toJL,
    List.map, dumpLen, jlDumpLen, jfDumpLen, k1, k2, k3, k4, k5, k6,
    k7, k8, k9, k10, k11, k12, n0, n12]
  omega

theorem c7big_size : payloadSerializedLen c7bigPayload = 300319 := by
  have hbig : strDumpLen (String.mk (List.replicate 300100 'a')) = 300102 := by
    rw [strDumpLen_mk, escLenList_replicate]
  have h := c7payload_size (String.mk (List.replicate 300100 'a'))
  rw [hbig] at h
  exact h

theorem c7big_trimmed_size :
    payloadSerializedLen (trimClusters 20 c7bigPayload) = 300309 := by
  have hbig : strDumpLen (String.mk (List.replicate 300100 'a')) = 300102 := by
    rw [strDumpLen_mk, escLenList_replicate]
  have ht : trimClusters 20 c7bigPayload =
      { identity := [Json.str (String.mk (List.replicate 300100 'a'))]
      , clusters := [⟨"***\\d", 0, 12, ["s", "s", "s", "s", "s", "s", "s", "s", "s", "s"]⟩]
      , analysis_stats := Json.str "stats"
      , user_intent := .null
      , meta := .null } := rfl
  have h := c7payload_trimmed_size (String.mk (List.replicate 300100 'a'))
  rw [hbig] at h
  rw [ht]
  exact h

/-- C7 counterexample: an over-ceiling payload whose stats member is untouched
by `_auto_trim` while the clusters' sample lists are what actually gets
trimmed — the claim's "the stats are trimmed first" names the wrong member. -/
theorem c7_stats_not_trimmed_counterexample :
    300000 < payloadSerializedLen c7bigPayload ∧
    (auto_trim 200 20 c7bigPayload).analysis_stats = c7bigPayload.analysis_stats ∧
    (auto_trim 200 20 c7bigPayload).clusters ≠ c7bigPayload.clusters := by
  have e1 := c7big_size
  have e2 := c7big_trimmed_size
  have hres : auto_trim 200 20 c7bigPayload =
      { trimClusters 20 c7bigPayload with
        identity := (trimClusters 20 c7bigPayload).identity.take 100 } := by
    unfold auto_trim
    rw [if_neg (by omega), if_neg (by omega)]
    rfl
  refine ⟨by omega, ?_, ?_⟩
  · rw [hres]; rfl
  · rw [hres]
    show (trimClusters 20 c7bigPayload).clusters ≠ c7bigPayload.clusters
    decide

/-- C7 (amended): for every payload whose serialized form exceeds the
300,000-byte ceiling, `_auto_trim` first trims each cluster's sample list (to
`max(5, max_sample_paths // 2)` entries) — never the `analysis_stats`,
`user_intent` or `meta` members — and only if the serialized form still
exceeds the ceiling afterwards is the identity list truncated (to
`max(50, max_items // 2)` entries), in that order. -/
theorem c7_auto_trim_order (max_items max_sample_paths : Nat) (p : Payload)
    (h : 300000 < payloadSerializedLen p) :
    (auto_trim max_items max_sample_paths p).analysis_stats = p.analysis_stats ∧
    (auto_trim max_items max_sample_paths p).user_intent = p.user_intent ∧
    (auto_trim max_items max_sample_paths p).meta = p.meta ∧
    (auto_trim max_items max_sample_paths p).clusters
      = (trimClusters max_sample_paths p).clusters ∧
    (payloadSerializedLen (trimClusters max_sample_paths p) ≤ 300000 →
      (auto_trim max_items max_sample_paths p).identity = p.identity) ∧
    (300000 < payloadSerializedLen (trimClusters max_sample_paths p) →
      (auto_trim max_items max_sample_paths p).identity
        = p.identity.take (max 50 (max_items / 2))) := by
  unfold auto_trim
  rw [if_neg (by omega)]
  by_cases h2 : payloadSerializedLen (trimClusters max_sample_paths p) ≤ 300000
  · rw [if_pos h2]
    exact ⟨rfl, rfl, rfl, rfl, fun _ => rfl, fun hc => absurd h2 (by omega)⟩
  · rw [if_neg h2]
    exact ⟨rfl, rfl, rfl, rfl, fun hc => absurd hc h2, fun _ => rfl⟩

/-- Witness for C7 (amended), at the over-ceiling payload of the
counterexample: the identity-truncation branch is reached because the sample
trim alone does not get under the ceiling. -/
theorem c7_auto_trim_order_witness :
    (auto_trim 200 20 c7bigPayload).analysis_stats = c7bigPayload.analysis_stats ∧
    (auto_trim 200 20 c7bigPayload).clusters = (trimClusters 20 c7bigPayload).clusters ∧
    (auto_trim 200 20 c7bigPayload).identity = c7bigPayload.identity.take (max 50 (200 / 2)) := by
  have h := c7_auto_trim_order 200 20 c7bigPayload (by rw [c7big_size]; omega)
  refine ⟨h.1, h.2.2.2.1, ?_⟩
  exact h.2.2.2.2.2 (by rw [c7big_trimmed_size]; omega)

/-! ## core/ai_client.py — schema normalization and the cached request -/

/-- Valid advisory levels (`level in {"L1", ..., "L5"}`). -/
def levelValid (s : String) : Bool :=
  s == "L1" || s == "L2" || s == "L3" || s == "L4" || s == "L5"

/-- `level in {"L4", "L5"}`. -/
def levelIn45 (s : String) : Bool := s == "L4" || s == "L5"

/-- `str(raw_item.get("level", "L3")).upper()` with the `L3` fallback for an
invalid tier (src/core/ai_client.py:184-186). -/
def normLevel (rf : JsonFields) : String :=
  let level0 := upperStr (pyStrOf (getKeyD rf "level" (.str "L3")))
  if levelValid level0 then level0 else "L3"

/-- The diagnosis normalization of `_normalize_result`
(src/core/ai_client.py:159-175): accept a `diagnosis` dict as is, convert the
flattened legacy `summary` shape, or start from the empty diagnosis; then
`setdefault` the four canonical fields. -/
def normDiagnosis (advice : JsonFields) : JsonFields :=
  let d :=
    match getKey advice "diagnosis" with
    | some (.obj d) => d
    | _ =>
        match getKey advice "summary" with
        | some (.obj ls) =>
            toJF [("summary", getKeyD ls "text" (.str "")),
                  ("highlights", getKeyD ls "highlights" (.arr .nil)),
                  ("risks", getKeyD ls "key_risks" (.arr .nil)),
                  ("actions", .arr .nil)]
        | _ =>
            toJF [("summary", .str ""), ("highlights", .arr .nil),
                  ("risks", .arr .nil), ("actions", .arr .nil)]
  objSetDefault (objSetDefault (objSetDefault (objSetDefault d
    "summary" (.str "")) "highlights" (.arr .nil)) "risks" (.arr .nil)) "actions" (.arr .nil)

/-- One normalized item record (src/core/ai_client.py:181-200); `none` models
the `ValueError`/`TypeError` that `int(...)` raises on a malformed
`estimated_savings_bytes`. -/
def normItem (rf : JsonFields) : Option Json :=
  match intCoerce (pyOr (getKeyD rf "estimated_savings_bytes" (.num 0)) (.num 0)) with
  | none => none
  | some est =>
      some (.obj (toJF
        [ ("item_id", getKeyD rf "item_id" .null)
        , ("target", .str (pyStrOf (getKeyD rf "target" (.str ""))))
        , ("file_name", .str (pyStrOf (getKeyD rf "file_name" (.str ""))))
        , ("level", .str (normLevel rf))
        , ("confidence", getKeyD rf "confidence" (.flo 0))
        , ("reason", .str (pyStrOf (getKeyD rf "reason" (.str ""))))
        , ("risk_notes", .str (pyStrOf (getKeyD rf "risk_notes" (.str ""))))
        , ("recommended_action", .str (pyStrOf (getKeyD rf "recommended_action" (.str ""))))
        , ("requires_confirmation", .bool (pyBool (getKeyD rf "requires_confirmation"
            (.bool (levelIn45 (normLevel rf))))))
        , ("estimated_savings_bytes", .num est)
        ]))

/-- The item loop of `_normalize_result` (src/core/ai_client.py:180-201):
non-dict entries are skipped, dict entries normalized in order. -/
def normItems : JsonList → Option JsonList
  | .nil => some .nil
  | .cons raw tl =>
      match raw with
      | .obj rf =>
          match normItem rf with
          | none => none
          | some it =>
              match normItems tl with
              | none => none
              | some rest => some (.cons it rest)
      | _ => normItems tl

/-- The level of a normalized item (normalized items always carry a string
`level`). -/
def levelOf (it : Json) : String :=
  match it with
  | .obj fs => match getKey fs "level" with | some (.str s) => s | _ => ""
  | _ => ""

def filterLevel (lvl : String) : JsonList → JsonList
  | .nil => .nil
  | .cons it tl =>
      if levelOf it == lvl then .cons it (filterLevel lvl tl) else filterLevel lvl tl

/-- The level grouping rebuilt by `_normalize_result`
(src/core/ai_client.py:206-210) over normalized items: the five fixed buckets
in item order (every normalized item's level is one of the five, so the
`setdefault` for a novel key never fires on this path). -/
def clientGroups (items : JsonList) : JsonFields :=
  toJF [ ("L1", .arr (filterLevel "L1" items))
       , ("L2", .arr (filterLevel "L2" items))
       , ("L3", .arr (filterLevel "L3" items))
       , ("L4", .arr (filterLevel "L4" items))
       , ("L5", .arr (filterLevel "L5" items)) ]

/-- The `report` normalization (src/core/ai_client.py:153-157):
`report if isinstance(report, dict) else {"overview": report if report is not None else ""}`. -/
def normReport (df : JsonFields) : Json :=
  match getKey df "report" with
  | some (.obj rf) => .obj rf
  | some .null => .obj (toJF [("overview", .str "")])
  | some r => .obj (toJF [("overview", r)])
  | none => .obj (toJF [("overview", .str "")])

/-- `advice = data.get("advice")` with the non-dict fallback `\x7b\x7d`
(src/core/ai_client.py:152-155). -/
def adviceOf (df : JsonFields) : JsonFields :=
  match getKey df "advice" with
  | some (.obj af) => af
  | _ => .nil

/-- `advice["diagnosis"] = diagnosis` (src/core/ai_client.py:175). -/
def adviceWithDiagnosis (af : JsonFields) : JsonFields :=
  objSet af "diagnosis" (.obj (normDiagnosis af))

/-- `if not isinstance(advice.get("items"), list): advice["items"] = []`
(src/core/ai_client.py:177-178). -/
def adviceItemsFixed (af : JsonFields) : JsonFields :=
  match getKey (adviceWithDiagnosis af) "items" with
  | some (.arr _) => adviceWithDiagnosis af
  | _ => objSet (adviceWithDiagnosis af) "items" (.arr .nil)

/-- The (always list-valued) `advice.get("items", [])` the item loop runs
over (src/core/ai_client.py:181). -/
def rawItemsOf (af : JsonFields) : JsonList :=
  match getKey (adviceItemsFixed af) "items" with
  | some (.arr l) => l
  | _ => .nil

/-- The `level_groups` value (src/core/ai_client.py:203-211): a non-empty
dict is kept, anything else is rebuilt from the normalized items. -/
def lgOf (af : JsonFields) (items : JsonList) : JsonFields :=
  match getKey (objSet (adviceItemsFixed af) "items" (.arr items)) "level_groups" with
  | some (.obj g) => (match g with | .nil => clientGroups items | g' => g')
  | _ => clientGroups items

/-- The final advice dict (`advice["items"]`/`advice["level_groups"]`
assignments, src/core/ai_client.py:201,211). -/
def adviceFinal (af : JsonFields) (items : JsonList) : JsonFields :=
  objSet (objSet (adviceItemsFixed af) "items" (.arr items)) "level_groups" (.obj (lgOf af items))

/-- The advice-side normalization of `_normalize_result`
(src/core/ai_client.py:159-211). -/
def normAdvice (af : JsonFields) : Option JsonFields :=
  match normItems (rawItemsOf af) with
  | none => none
  | some items => some (adviceFinal af items)

/-- `AIClient._normalize_result` (src/core/ai_client.py:145-212); `none`
models an exception escaping from the item normalization. -/
def normalizeResult (data : Json) : Option Json :=
  match data with
  | .obj df =>
      match normAdvice (adviceOf df) with
      | none => none
      | some af => some (.obj (toJF [("advice", .obj af), ("report", normReport df)]))
  | _ =>
      some (.obj (toJF
        [ ("advice", .obj (toJF
            [ ("diagnosis", .obj (toJF [("summary", .str "")]))
            , ("items", .arr .nil)
            , ("level_groups", .obj .nil) ]))
        , ("report", .obj (toJF [("overview", .str (pyStrOf data))])) ]))

/-- The client's in-memory state: the `cache_enabled` flag and the content
cache (a dict keyed by the payload hash). -/
structure ClientState where
  cache_enabled : Bool
  cache : List (String × Json)

/-- `h in self.cache` / `self.cache[h]`. -/
def cacheLookup (k : String) (cache : List (String × Json)) : Option Json :=
  alist k cache

/-- `self.cache[h] = v` (replace in place or append). -/
def cacheInsert (k : String) (v : Json) : List (String × Json) → List (String × Json)
  | [] => [(k, v)]
  | (k', w) :: rest => if k' == k then (k', v) :: rest else (k', w) :: cacheInsert k v rest

/-- `AIClient._payload_hash` (src/core/ai_client.py:113-115): the SHA-256
hexdigest of `json.dumps(payload, sort_keys=True)`.  The model keys the cache
by the digest input itself: SHA-256 is a fixed deterministic function of this
text, and every property settled here depends only on the hash being a
deterministic function of the payload. -/
def payloadHash (payload : Json) : String := String.mk (dumpS payload)

/-- The retry loop of `request_analysis` (src/core/ai_client.py:251-280).
`attempts` carries, per attempt, the parsed JSON the transport+extraction
+`json.loads` pipeline would deliver (`none` for a network/HTTP/parse
failure); the counter starts at 3 (`for attempt in range(1, 4)`).  The third
component of the result records whether the network was used. -/
def runAttempts (st : ClientState) (h : String) :
    List (Option Json) → Nat → Except String Json × ClientState × Bool
  | _, 0 => (.error "AI call failed", st, true)
  | atts, n + 1 =>
      match atts with
      | [] => runAttempts st h [] n
      | a :: rest =>
          match a with
          | some j =>
              match normalizeResult j with
              | some parsed =>
                  let st' := if st.cache_enabled then
                      { st with cache := cacheInsert h parsed st.cache } else st
                  (.ok parsed, st', true)
              | none => runAttempts st h rest n
          | none => runAttempts st h rest n

/-- `AIClient.request_analysis` (src/core/ai_client.py:214-280): hash the
payload; on an enabled cache holding the hash, return the schema-normalized
cached value without touching the network; otherwise run up to three attempts,
storing the normalized result in the cache on success. -/
def request_analysis (st : ClientState) (payload : Json) (attempts : List (Option Json)) :
    Except String Json × ClientState × Bool :=
  let h := payloadHash payload
  if st.cache_enabled then
    match cacheLookup h st.cache with
    | some v =>
        match normalizeResult v with
        | some r => (.ok r, st, false)
        | none => (.error "normalize raised", st, false)
    | none => runAttempts st h attempts 3
  else runAttempts st h attempts 3

/-! ### Object-update algebra used for the normalization proofs -/

theorem getKey_objSet_same : ∀ (fs : JsonFields) (k : String) (v : Json),
    getKey (objSet fs k v) k = some v
  | .nil, k, v => by simp [objSet, getKey]
  | .cons a w tl, k, v => by
      cases h : a == k with
      | true => simp [objSet, getKey, h]
      | false => simp [objSet, getKey, h, getKey_objSet_same tl k v]

theorem getKey_objSet_other : ∀ (fs : JsonFields) (k k' : String) (v : Json),
    k' ≠ k → getKey (objSet fs k v) k' = getKey fs k'
  | .nil, k, k', v, hne => by
      have h1 : (k == k') = false := by
        simp only [beq_eq_false_iff_ne]
        exact fun e => hne e.symm
      simp [objSet, getKey, h1]
  | .cons a w tl, k, k', v, hne => by
      cases h : a == k with
      | true =>
          have ha : a = k := eq_of_beq h
          have h2 : (a == k') = false := by
            subst ha
            simp only [beq_eq_false_iff_ne]
            exact fun e => hne e.symm
          simp [objSet, h, getKey, h2]
      | false => simp [objSet, h, getKey, getKey_objSet_other tl k k' v hne]

theorem objSet_self : ∀ (fs : JsonFields) (k : String) (v : Json),
    getKey fs k = some v → objSet fs k v = fs
  | .nil, k, v, h => by simp [getKey] at h
  | .cons a w tl, k, v, h => by
      cases ha : a == k with
      | true =>
          simp only [getKey, ha, if_true] at h
          injection h with h'
          simp [objSet, ha, h']
      | false =>
          simp only [getKey, ha, Bool.false_eq_true, if_false] at h
          simp [objSet, ha, objSet_self tl k v h]

theorem objSetDefault_present (fs : JsonFields) (k : String) (v : Json)
    (h : (getKey fs k).isSome = true) : objSetDefault fs k v = fs := by
  unfold objSetDefault
  cases hk : getKey fs k with
  | some w => rfl
  | none => rw [hk] at h; simp at h

theorem getKey_objSetDefault_isSome (fs : JsonFields) (k : String) (v : Json) :
    (getKey (objSetDefault fs k v) k).isSome = true := by
  unfold objSetDefault
  cases hk : getKey fs k with
  | some w => simp [hk]
  | none => rw [getKey_objSet_same]; rfl

theorem getKey_objSetDefault_mono (fs : JsonFields) (k k' : String) (v : Json)
    (h : (getKey fs k').isSome = true) :
    (getKey (objSetDefault fs k v) k').isSome = true := by
  unfold objSetDefault
  cases hk : getKey fs k with
  | some w => exact h
  | none =>
      by_cases he : k' = k
      · subst he; rw [getKey_objSet_same]; rfl
      · rw [getKey_objSet_other _ _ _ _ he]; exact h

theorem setdefault4_complete (d : JsonFields) (v1 v2 v3 v4 : Json) :
    (getKey (objSetDefault (objSetDefault (objSetDefault (objSetDefault d
        "summary" v1) "highlights" v2) "risks" v3) "actions" v4) "summary").isSome = true ∧
    (getKey (objSetDefault (objSetDefault (objSetDefault (objSetDefault d
        "summary" v1) "highlights" v2) "risks" v3) "actions" v4) "highlights").isSome = true ∧
    (getKey (objSetDefault (objSetDefault (objSetDefault (objSetDefault d
        "summary" v1) "highlights" v2) "risks" v3) "actions" v4) "risks").isSome = true ∧
    (getKey (objSetDefault (objSetDefault (objSetDefault (objSetDefault d
        "summary" v1) "highlights" v2) "risks" v3) "actions" v4) "actions").isSome = true := by
  refine ⟨?_, ?_, ?_, ?_⟩
  · exact getKey_objSetDefault_mono _ _ _ _ (getKey_objSetDefault_mono _ _ _ _
      (getKey_objSetDefault_mono _ _ _ _ (getKey_objSetDefault_isSome _ _ _)))
  · exact getKey_objSetDefault_mono _ _ _ _ (getKey_objSetDefault_mono _ _ _ _
      (getKey_objSetDefault_isSome _ _ _))
  · exact getKey_objSetDefault_mono _ _ _ _ (getKey_objSetDefault_isSome _ _ _)
  · exact getKey_objSetDefault_isSome _ _ _

theorem normDiagnosis_complete (af : JsonFields) :
    (getKey (normDiagnosis af) "summary").isSome = true ∧
    (getKey (normDiagnosis af) "highlights").isSome = true ∧
    (getKey (normDiagnosis af) "risks").isSome = true ∧
    (getKey (normDiagnosis af) "actions").isSome = true := by
  unfold normDiagnosis
  exact setdefault4_complete _ _ _ _ _

theorem normDiagnosis_stable (af d : JsonFields)
    (hd : getKey af "diagnosis" = some (.obj d))
    (h1 : (getKey d "summary").isSome = true)
    (h2 : (getKey d "highlights").isSome = true)
    (h3 : (getKey d "risks").isSome = true)
    (h4 : (getKey d "actions").isSome = true) :
    normDiagnosis af = d := by
  unfold normDiagnosis
  rw [hd]
  show objSetDefault (objSetDefault (objSetDefault (objSetDefault d
    "summary" (.str "")) "highlights" (.arr .nil)) "risks" (.arr .nil)) "actions" (.arr .nil) = d
  rw [objSetDefault_present _ _ _ h1, objSetDefault_present _ _ _ h2,
    objSetDefault_present _ _ _ h3, objSetDefault_present _ _ _ h4]

theorem cacheLookup_insert (k : String) (v : Json) (c : List (String × Json)) :
    cacheLookup k (cacheInsert k v c) = some v := by
  induction c with
  | nil => simp [cacheInsert, cacheLookup, alist]
  | cons p rest ih =>
      cases h : p.1 == k with
      | true => simp [cacheInsert, h, cacheLookup, alist]
      | false => simpa [cacheInsert, h, cacheLookup, alist] using ih

/-! ### Idempotence of `_normalize_result` on object-shaped responses -/

theorem estRound (e : Int) : intCoerce (pyOr (.num e) (.num 0)) = some e := by
  unfold pyOr
  by_cases h : e = 0
  · subst h
    simp [pyBool, intCoerce]
  · have hb : pyBool (.num e) = true := by simp [pyBool, bne_iff_ne, h]
    rw [hb, if_pos rfl]
    rfl

theorem levelValid_upper (s : String) (h : levelValid s = true) : upperStr s = s := by
  simp only [levelValid, Bool.or_eq_true, beq_iff_eq] at h
  rcases h with ((((h | h) | h) | h) | h) <;> subst h <;> decide

theorem normLevel_valid (rf : JsonFields) : levelValid (normLevel rf) = true := by
  unfold normLevel
  by_cases h : levelValid (upperStr (pyStrOf (getKeyD rf "level" (.str "L3")))) = true
  · rw [if_pos h]; exact h
  · rw [if_neg h]; decide

theorem normLevel_of_level (rf : JsonFields) (L : String)
    (hf : getKeyD rf "level" (.str "L3") = .str L) (hv : levelValid L = true) :
    normLevel rf = L := by
  unfold normLevel
  rw [hf]
  show (if levelValid (upperStr (pyStrOf (.str L))) = true then _ else _) = L
  have hps : pyStrOf (.str L) = L := rfl
  rw [hps, levelValid_upper L hv, if_pos hv]

theorem normItem_idem (rf : JsonFields) (it : Json) (h : normItem rf = some it) :
    ∃ F, it = Json.obj F ∧ normItem F = some it := by
  unfold normItem at h
  cases hE : intCoerce (pyOr (getKeyD rf "estimated_savings_bytes" (.num 0)) (.num 0)) with
  | none => rw [hE] at h; exact absurd h (by simp)
  | some est =>
      rw [hE] at h
      injection h with h'
      refine ⟨_, h'.symm, ?_⟩
      rw [h'.symm]
      unfold normItem
      rw [show getKeyD (toJF
        [ ("item_id", getKeyD rf "item_id" .null)
        , ("target", .str (pyStrOf (getKeyD rf "target" (.str ""))))
        , ("file_name", .str (pyStrOf (getKeyD rf "file_name" (.str ""))))
        , ("level", .str (normLevel rf))
        , ("confidence", getKeyD rf "confidence" (.flo 0))
        , ("reason", .str (pyStrOf (getKeyD rf "reason" (.str ""))))
        , ("risk_notes", .str (pyStrOf (getKeyD rf "risk_notes" (.str ""))))
        , ("recommended_action", .str (pyStrOf (getKeyD rf "recommended_action" (.str ""))))
        , ("requires_confirmation", .bool (pyBool (getKeyD rf "requires_confirmation"
            (.bool (levelIn45 (normLevel rf))))))
        , ("estimated_savings_bytes", .num est)
        ]) "estimated_savings_bytes" (.num 0) = .num est from rfl]
      rw [estRound est]
      have hLv : normLevel (toJF
        [ ("item_id", getKeyD rf "item_id" .null)
        , ("target", .str (pyStrOf (getKeyD rf "target" (.str ""))))
        , ("file_name", .str (pyStrOf (getKeyD rf "file_name" (.str ""))))
        , ("level", .str (normLevel rf))
        , ("confidence", getKeyD rf "confidence" (.flo 0))
        , ("reason", .str (pyStrOf (getKeyD rf "reason" (.str ""))))
        , ("risk_notes", .str (pyStrOf (getKeyD rf "risk_notes" (.str ""))))
        , ("recommended_action", .str (pyStrOf (getKeyD rf "recommended_action" (.str ""))))
        , ("requires_confirmation", .bool (pyBool (getKeyD rf "requires_confirmation"
            (.bool (levelIn45 (normLevel rf))))))
        , ("estimated_savings_bytes", .num est)
        ]) = normLevel rf := normLevel_of_level _ _ rfl (normLevel_valid rf)
      rw [hLv]
      simp [getKeyD, getKey, pyStrOf, pyBool]

theorem normItems_idem : ∀ (l out : JsonList), normItems l = some out → normItems out = some out
  | .nil, out, h => by
      unfold normItems at h
      injection h with h'
      rw [← h']
      rfl
  | .cons raw tl, out, h => by
      unfold normItems at h
      cases raw with
      | obj rf =>
          dsimp only [] at h
          cases hni : normItem rf with
          | none => rw [hni] at h; exact absurd h (by simp)
          | some it =>
              rw [hni] at h
              cases hrest : normItems tl with
              | none => rw [hrest] at h; exact absurd h (by simp)
              | some rest =>
                  rw [hrest] at h
                  injection h with h'
                  obtain ⟨F, hF, hFn⟩ := normItem_idem rf it hni
                  rw [← h', hF]
                  rw [hF] at hFn
                  unfold normItems
                  dsimp only []
                  rw [hFn, normItems_idem tl rest hrest]
      | null => exact normItems_idem tl out h
      | bool b => exact normItems_idem tl out h
      | num n => exact normItems_idem tl out h
      | flo q => exact normItems_idem tl out h
      | str s => exact normItems_idem tl out h
      | arr xs => exact normItems_idem tl out h

theorem getKey_adviceItemsFixed_diagnosis (af : JsonFields) :
    getKey (adviceItemsFixed af) "diagnosis" = some (.obj (normDiagnosis af)) := by
  have hne3 : ("diagnosis" : String) ≠ "items" := by decide
  have hbase : getKey (adviceWithDiagnosis af) "diagnosis" = some (.obj (normDiagnosis af)) :=
    getKey_objSet_same _ _ _
  unfold adviceItemsFixed
  cases hgi : getKey (adviceWithDiagnosis af) "items" with
  | none => rw [getKey_objSet_other _ _ _ _ hne3]; exact hbase
  | some v =>
      cases v with
      | arr xs => exact hbase
      | null => rw [getKey_objSet_other _ _ _ _ hne3]; exact hbase
      | bool b => rw [getKey_objSet_other _ _ _ _ hne3]; exact hbase
      | num n => rw [getKey_objSet_other _ _ _ _ hne3]; exact hbase
      | flo q => rw [getKey_objSet_other _ _ _ _ hne3]; exact hbase
      | str s => rw [getKey_objSet_other _ _ _ _ hne3]; exact hbase
      | obj fs => rw [getKey_objSet_other _ _ _ _ hne3]; exact hbase

theorem clientGroups_ne_nil (items : JsonList) : clientGroups items ≠ JsonFields.nil := by
  intro hx
  cases hx

theorem lgOf_ne_nil (af : JsonFields) (items : JsonList) :
    lgOf af items ≠ JsonFields.nil := by
  unfold lgOf
  cases hg : getKey (objSet (adviceItemsFixed af) "items" (.arr items)) "level_groups" with
  | none => exact clientGroups_ne_nil items
  | some v =>
      cases v with
      | obj g =>
          cases g with
          | nil => exact clientGroups_ne_nil items
          | cons a b c => intro hx; cases hx
      | null => exact clientGroups_ne_nil items
      | bool b => exact clientGroups_ne_nil items
      | num n => exact clientGroups_ne_nil items
      | flo q => exact clientGroups_ne_nil items
      | str s => exact clientGroups_ne_nil items
      | arr xs => exact clientGroups_ne_nil items

theorem normAdvice_idem (af0 af : JsonFields) (h : normAdvice af0 = some af) :
    normAdvice af = some af := by
  unfold normAdvice at h
  cases hN : normItems (rawItemsOf af0) with
  | none => rw [hN] at h; exact absurd h (by simp)
  | some items =>
      rw [hN] at h
      injection h with h'
      have haf : af = adviceFinal af0 items := h'.symm
      have hne1 : ("items" : String) ≠ "level_groups" := by decide
      have hne2 : ("diagnosis" : String) ≠ "level_groups" := by decide
      have hne3 : ("diagnosis" : String) ≠ "items" := by decide
      have f1 : getKey af "level_groups" = some (.obj (lgOf af0 items)) := by
        rw [haf]; exact getKey_objSet_same _ _ _
      have f2 : getKey af "items" = some (.arr items) := by
        rw [haf, adviceFinal, getKey_objSet_other _ _ _ _ hne1]
        exact getKey_objSet_same _ _ _
      have f3 : getKey af "diagnosis" = some (.obj (normDiagnosis af0)) := by
        rw [haf, adviceFinal, getKey_objSet_other _ _ _ _ hne2,
          getKey_objSet_other _ _ _ _ hne3]
        exact getKey_adviceItemsFixed_diagnosis af0
      have f4 : lgOf af0 items ≠ JsonFields.nil := lgOf_ne_nil af0 items
      obtain ⟨d1, d2, d3, d4⟩ := normDiagnosis_complete af0
      have f6 : normDiagnosis af = normDiagnosis af0 :=
        normDiagnosis_stable af _ f3 d1 d2 d3 d4
      have f5 : normItems items = some items := normItems_idem _ _ hN
      have g1 : adviceWithDiagnosis af = af := by
        unfold adviceWithDiagnosis
        rw [f6]
        exact objSet_self _ _ _ f3
      have g2 : adviceItemsFixed af = af := by
        unfold adviceItemsFixed
        rw [g1, f2]
      have g3 : rawItemsOf af = items := by
        unfold rawItemsOf
        rw [g2, f2]
      have g4 : lgOf af items = lgOf af0 items := by
        conv_lhs => unfold lgOf
        rw [g2, objSet_self _ _ _ f2, f1]
        cases hl : lgOf af0 items with
        | nil => exact absurd hl f4
        | cons a b c => rfl
      have g5 : adviceFinal af items = af := by
        unfold adviceFinal
        rw [g2, objSet_self _ _ _ f2, g4]
        exact objSet_self _ _ _ f1
      unfold normAdvice
      rw [g3, f5]
      dsimp only []
      rw [g5]

theorem normReport_isObj (df : JsonFields) : ∃ rf, normReport df = .obj rf := by
  unfold normReport
  cases h : getKey df "report" with
  | none => exact ⟨_, rfl⟩
  | some r => cases r <;> exact ⟨_, rfl⟩

theorem normalize_idem_obj (df : JsonFields) (r : Json)
    (h : normalizeResult (.obj df) = some r) : normalizeResult r = some r := by
  unfold normalizeResult at h
  dsimp only [] at h
  cases hA : normAdvice (adviceOf df) with
  | none => rw [hA] at h; exact absurd h (by simp)
  | some af =>
      rw [hA] at h
      injection h with h'
      rw [← h']
      obtain ⟨rf, hrf⟩ := normReport_isObj df
      unfold normalizeResult
      dsimp only []
      have hAd : adviceOf (toJF [("advice", .obj af), ("report", normReport df)]) = af := rfl
      rw [hAd, normAdvice_idem _ _ hA]
      dsimp only []
      have hR : normReport (toJF [("advice", .obj af), ("report", normReport df)])
          = normReport df := by
        rw [hrf]
        rfl
      rw [hR]

/-- A successful miss-path call stores the normalized response under the hash
and returns a value that is a fixed point of normalization (given that the
remote responses are JSON objects). -/
theorem runAttempts_spec : ∀ (n : Nat) (atts : List (Option Json)) (st : ClientState)
    (h : String) (r : Json) (st1 : ClientState) (used : Bool),
    st.cache_enabled = true →
    (∀ j, some j ∈ atts → ∃ fs, j = Json.obj fs) →
    runAttempts st h atts n = (.ok r, st1, used) →
    st1.cache_enabled = true ∧ st1.cache = cacheInsert h r st.cache ∧
      normalizeResult r = some r := by
  intro n
  induction n with
  | zero =>
      intro atts st h r st1 used hen hobj hr
      unfold runAttempts at hr
      simp at hr
  | succ n ih =>
      intro atts st h r st1 used hen hobj hr
      unfold runAttempts at hr
      cases atts with
      | nil => exact ih [] st h r st1 used hen (by intro j hj; cases hj) hr
      | cons a rest =>
          dsimp only [] at hr
          cases a with
          | none =>
              exact ih rest st h r st1 used hen
                (fun j hj => hobj j (List.mem_cons_of_mem _ hj)) hr
          | some j =>
              dsimp only [] at hr
              cases hn : normalizeResult j with
              | none =>
                  rw [hn] at hr
                  exact ih rest st h r st1 used hen
                    (fun j hj => hobj j (List.mem_cons_of_mem _ hj)) hr
              | some parsed =>
                  rw [hn, hen] at hr
                  simp only [if_true, Prod.mk.injEq, Except.ok.injEq] at hr
                  obtain ⟨hpr, hst, hu⟩ := hr
                  obtain ⟨fs, hfs⟩ := hobj j (List.mem_cons_self _ _)
                  subst hfs
                  have hidem : normalizeResult parsed = some parsed :=
                    normalize_idem_obj fs parsed hn
                  subst hpr
                  rw [← hst]
                  exact ⟨rfl, rfl, hidem⟩

/-- C8: cache round-trip of `request_analysis`.  With caching enabled and the
payload's hash not yet cached, a first call that succeeds over the network
(each remote response being a JSON object, the shape the system instruction
demands) stores its schema-normalized result under the payload's content hash;
requesting the same payload again — with any network behavior `atts2`, which
is never consulted — returns exactly the cached, schema-normalized result,
leaves the state unchanged, and issues no network call (`false` in the last
component). -/
theorem c8_cache_roundtrip (st : ClientState) (payload : Json)
    (atts atts2 : List (Option Json)) (r : Json) (st1 : ClientState)
    (hen : st.cache_enabled = true)
    (hobj : ∀ j, some j ∈ atts → ∃ fs, j = Json.obj fs)
    (hfirst : request_analysis st payload atts = (.ok r, st1, true)) :
    cacheLookup (payloadHash payload) st1.cache = some r ∧
    request_analysis st1 payload atts2 = (.ok r, st1, false) := by
  unfold request_analysis at hfirst
  rw [if_pos hen] at hfirst
  cases hc : cacheLookup (payloadHash payload) st.cache with
  | some v =>
      rw [hc] at hfirst
      dsimp only [] at hfirst
      cases hnv : normalizeResult v with
      | some rv => rw [hnv] at hfirst; simp at hfirst
      | none => rw [hnv] at hfirst; simp at hfirst
  | none =>
      rw [hc] at hfirst
      dsimp only [] at hfirst
      obtain ⟨he1, he2, he3⟩ :=
        runAttempts_spec 3 atts st (payloadHash payload) r st1 true hen hobj hfirst
      have hlook : cacheLookup (payloadHash payload) st1.cache = some r := by
        rw [he2]; exact cacheLookup_insert _ _ _
      refine ⟨hlook, ?_⟩
      unfold request_analysis
      rw [if_pos he1, hlook]
      dsimp only []
      rw [he3]

/-- Concrete witness data for C8: a fresh enabled-cache client, a small
payload, one remote response in the canonical shape. -/
def c8st0 : ClientState := ⟨true, []⟩

def c8pay : Json := .obj (toJF [("a", .num 1)])

def c8resp : Json :=
  .obj (toJF
    [ ("advice", .obj (toJF [("items", .arr .nil)]))
    , ("report", .obj (toJF [("overview", .str "ok")])) ])

/-- The normalized result the first call computes and stores. -/
def c8r : Json :=
  .obj (toJF
    [ ("advice", .obj (toJF
        [ ("items", .arr .nil)
        , ("diagnosis", .obj (toJF
            [ ("summary", .str ""), ("highlights", .arr .nil)
            , ("risks", .arr .nil), ("actions", .arr .nil) ]))
        , ("level_groups", .obj (toJF
            [ ("L1", .arr .nil), ("L2", .arr .nil), ("L3", .arr .nil)
            , ("L4", .arr .nil), ("L5", .arr .nil) ])) ]))
    , ("report", .obj (toJF [("overview", .str "ok")])) ])

/-- The client state after the first call: the result cached under the
payload's hash. -/
def c8st1 : ClientState := ⟨true, [(payloadHash c8pay, c8r)]⟩

/-- Witness for C8: the first call on the concrete payload uses the network
and stores the normalized response; the repeated call returns it from the
cache with no network use. -/
theorem c8_cache_roundtrip_witness :
    request_analysis c8st0 c8pay [some c8resp] = (.ok c8r, c8st1, true) ∧
    cacheLookup (payloadHash c8pay) c8st1.cache = some c8r ∧
    request_analysis c8st1 c8pay [] = (.ok c8r, c8st1, false) := by
  have hfirst : request_analysis c8st0 c8pay [some c8resp] = (.ok c8r, c8st1, true) := rfl
  have h := c8_cache_roundtrip c8st0 c8pay [some c8resp] [] c8r c8st1 rfl
    (by
      intro j hj
      simp only [List.mem_singleton, Option.some.injEq] at hj
      subst hj
      exact ⟨_, rfl⟩)
    hfirst
  exact ⟨hfirst, h.1, h.2⟩

/-! ## core/ai_local_advisor.py — `merge_remote_into_local`

The merge manipulates the loosely-typed advice dicts directly, so it is
embedded over the `Json` model; `none` models an exception escaping the
Python function (`.get` on a non-dict, `int(...)` on malformed data). -/

/-- `str(value or "")` (src/core/ai_local_advisor.py:116-121). -/
def pyStrOrEmpty (v : Json) : String := if pyBool v then pyStrOf v else ""

/-- `_prefer_cn_text` (src/core/ai_local_advisor.py:116-121). -/
def preferCnText (cur rem : Json) : String :=
  if hasCjkStr (pyStrOrEmpty rem) then pyStrOrEmpty rem else pyStrOrEmpty cur

/-- `[str(x) for x in lst]`. -/
def jlMapStr : JsonList → JsonList
  | .nil => .nil
  | .cons x tl => .cons (.str (pyStrOf x)) (jlMapStr tl)

/-- `[str(x) for x in lst if x is not None]`. -/
def jlMapStrSkipNone : JsonList → JsonList
  | .nil => .nil
  | .cons .null tl => jlMapStrSkipNone tl
  | .cons x tl => .cons (.str (pyStrOf x)) (jlMapStrSkipNone tl)

/-- `any(_contains_cjk(x) for x in l)` over a list of strings. -/
def jlAnyCjkStr : JsonList → Bool
  | .nil => false
  | .cons (.str s) tl => hasCjkStr s || jlAnyCjkStr tl
  | .cons _ tl => jlAnyCjkStr tl

/-- `_prefer_cn_list` (src/core/ai_local_advisor.py:124-131). -/
def preferCnList (cur rem : Json) : Json :=
  let curList : JsonList := match cur with | .arr xs => jlMapStr xs | _ => .nil
  match rem with
  | .arr rxs =>
      match jlMapStrSkipNone rxs with
      | .nil => .arr curList
      | remList => if jlAnyCjkStr remList then .arr remList else .arr curList
  | _ => .arr curList

/-- The `by_item_id` map (src/core/ai_local_advisor.py:312-319): the index of
the last dict entry whose integer `item_id` equals `iid` (later entries
overwrite earlier ones in the Python dict). -/
def byIdFind (iid : Int) : JsonList → Nat → Option Nat
  | .nil, _ => none
  | .cons it tl, i =>
      match byIdFind iid tl (i + 1) with
      | some j => some j
      | none =>
          match it with
          | .obj fs =>
              match getKey fs "item_id" with
              | some (.num n) => if n == iid then some i else none
              | _ => none
          | _ => none

/-- The `by_path` map (src/core/ai_local_advisor.py:320-322): the index of the
last dict entry whose lowercased string `target` is the non-empty `t`. -/
def byPathFind (t : String) : JsonList → Nat → Option Nat
  | .nil, _ => none
  | .cons it tl, i =>
      match byPathFind t tl (i + 1) with
      | some j => some j
      | none =>
          match it with
          | .obj fs =>
              let tgt := lowerStr (pyStrOf (getKeyD fs "target" (.str "")))
              if tgt != "" && tgt == t then some i else none
          | _ => none

/-- `level` of the merge loop (src/core/ai_local_advisor.py:343-345): the
remote value, upper-cased, falling back to the current level when it is not a
valid tier. -/
def mergedLevel (cf rf : JsonFields) : String :=
  let level0 := upperStr (pyStrOf (getKeyD rf "level" (getKeyD cf "level" (.str "L3"))))
  if (alist level0 LEVEL_ORDER).isSome then level0
  else upperStr (pyStrOf (getKeyD cf "level" (.str "L3")))

/-- The unconditional field overwrites of one matched pair
(src/core/ai_local_advisor.py:346-353). -/
def mergeItemBase (cf rf : JsonFields) : JsonFields :=
  objSet (objSet (objSet (objSet (objSet (objSet cf
    "level" (.str (mergedLevel cf rf)))
    "confidence" (.flo (roundTo2 (safeFloat (getKeyD rf "confidence" (getKeyD cf "confidence" (.flo 0)))))))
    "reason" (.str (preferCnText (getKeyD cf "reason" (.str "")) (getKeyD rf "reason" (.str "")))))
    "risk_notes" (.str (preferCnText (getKeyD cf "risk_notes" (.str "")) (getKeyD rf "risk_notes" (.str "")))))
    "recommended_action" (.str (preferCnText (getKeyD cf "recommended_action" (.str ""))
      (getKeyD rf "recommended_action" (.str "")))))
    "requires_confirmation" (.bool (pyBool (getKeyD rf "requires_confirmation"
      (.bool (levelIn45 (mergedLevel cf rf))))))

/-- One matched pair (src/core/ai_local_advisor.py:342-356), including the
conditional `estimated_savings_bytes` overwrite guarded by
`raw.get("estimated_savings_bytes") is not None`. -/
def mergeItem (cf rf : JsonFields) : Option JsonFields :=
  match getKey rf "estimated_savings_bytes" with
  | none => some (mergeItemBase cf rf)
  | some .null => some (mergeItemBase cf rf)
  | some v =>
      match intCoerce (pyOr v (.num 0)) with
      | none => none
      | some e => some (objSet (mergeItemBase cf rf) "estimated_savings_bytes" (.num e))

/-- The local-index lookup for one remote record
(src/core/ai_local_advisor.py:331-338): integer `item_id` first, then the
lowercased path. -/
def lookupIndex (orig : JsonList) (rf : JsonFields) : Option Nat :=
  match getKey rf "item_id" with
  | some (.num n) =>
      (match byIdFind n orig 0 with
       | some i => some i
       | none => byPathFind (lowerStr (pyStrOf (getKeyD rf "target" (.str "")))) orig 0)
  | _ => byPathFind (lowerStr (pyStrOf (getKeyD rf "target" (.str "")))) orig 0

/-- The remote-item loop (src/core/ai_local_advisor.py:327-356): `orig` is
the original local item list the two lookup maps were built from (updates
never change `item_id`, `target` or dict-ness, so looking the maps up against
`orig` is exactly the Python dict prebuild). -/
def mergeLoop (orig : JsonList) : JsonList → JsonList → Nat → Option (JsonList × Nat)
  | .nil, loc, applied => some (loc, applied)
  | .cons raw tl, loc, applied =>
      match raw with
      | .obj rf =>
          (match lookupIndex orig rf with
           | none => mergeLoop orig tl loc applied
           | some i =>
               match jlGet loc i with
               | some (.obj cf) =>
                   (match mergeItem cf rf with
                    | none => none
                    | some cf2 => mergeLoop orig tl (jlSet loc i (.obj cf2)) (applied + 1))
               | _ => none)
      | _ => mergeLoop orig tl loc applied

/-- The diagnosis merge (src/core/ai_local_advisor.py:358-366). -/
def mergeDiagnosis (adviceF remoteAdviceF : JsonFields) : JsonFields :=
  match getKeyD remoteAdviceF "diagnosis" (.obj .nil) with
  | .obj rd =>
      (match getKey adviceF "diagnosis" with
       | some (.obj d) =>
           objSet adviceF "diagnosis" (.obj
             (objSet (objSet (objSet (objSet d
               "summary" (.str (preferCnText (getKeyD d "summary" (.str ""))
                 (getKeyD rd "summary" (.str "")))))
               "highlights" (preferCnList (getKeyD d "highlights" (.arr .nil))
                 (getKeyD rd "highlights" (.arr .nil))))
               "risks" (preferCnList (getKeyD d "risks" (.arr .nil))
                 (getKeyD rd "risks" (.arr .nil))))
               "actions" (preferCnList (getKeyD d "actions" (.arr .nil))
                 (getKeyD rd "actions" (.arr .nil)))))
       | none =>
           objSet adviceF "diagnosis" (.obj
             (objSet (objSet (objSet (objSet JsonFields.nil
               "summary" (.str (preferCnText (.str "") (getKeyD rd "summary" (.str "")))))
               "highlights" (preferCnList (.arr .nil) (getKeyD rd "highlights" (.arr .nil))))
               "risks" (preferCnList (.arr .nil) (getKeyD rd "risks" (.arr .nil))))
               "actions" (preferCnList (.arr .nil) (getKeyD rd "actions" (.arr .nil)))))
       | some _ => adviceF)
  | _ => adviceF

/-- `groups.setdefault(level, []).append(item)` (src/core/ai_local_advisor.py:207). -/
def appendGroup (g : JsonFields) (lvl : String) (it : Json) : Option JsonFields :=
  match getKey g lvl with
  | some (.arr xs) => some (objSet g lvl (.arr (jlAppendOne xs it)))
  | some _ => none
  | none => some (objSet g lvl (.arr (jlAppendOne .nil it)))

def blgGo : JsonList → JsonFields → Option JsonFields
  | .nil, g => some g
  | .cons it tl, g =>
      match it with
      | .obj fs =>
          match appendGroup g (upperStr (pyStrOf (getKeyD fs "level" (.str "L3")))) (.obj fs) with
          | none => none
          | some g2 => blgGo tl g2
      | _ => none

/-- `_build_level_groups` (src/core/ai_local_advisor.py:203-208); `none`
models the `AttributeError` a non-dict item raises. -/
def buildLevelGroups (items : JsonList) : Option JsonFields :=
  blgGo items (toJF [("L1", .arr .nil), ("L2", .arr .nil), ("L3", .arr .nil),
    ("L4", .arr .nil), ("L5", .arr .nil)])

/-- The level-count and savings recomputation
(src/core/ai_local_advisor.py:375-384); non-dict entries are skipped there. -/
def sumGo : JsonList → Nat → Nat → Nat → Nat → Nat → Int →
    Option (Nat × Nat × Nat × Nat × Nat × Int)
  | .nil, c1, c2, c3, c4, c5, s => some (c1, c2, c3, c4, c5, s)
  | .cons it tl, c1, c2, c3, c4, c5, s =>
      match it with
      | .obj fs =>
          let lvl := upperStr (pyStrOf (getKeyD fs "level" (.str "L3")))
          let c1' := if lvl == "L1" then c1 + 1 else c1
          let c2' := if lvl == "L2" then c2 + 1 else c2
          let c3' := if lvl == "L3" then c3 + 1 else c3
          let c4' := if lvl == "L4" then c4 + 1 else c4
          let c5' := if lvl == "L5" then c5 + 1 else c5
          if lvl == "L1" || lvl == "L2" || lvl == "L3" then
            match intCoerce (pyOr (getKeyD fs "estimated_savings_bytes" (.num 0)) (.num 0)) with
            | none => none
            | some e => sumGo tl c1' c2' c3' c4' c5' (s + e)
          else sumGo tl c1' c2' c3' c4' c5' s
      | _ => sumGo tl c1 c2 c3 c4 c5 s

/-- The tail of the merge after the item loop
(src/core/ai_local_advisor.py:358-392): diagnosis merge, conditional report
replacement, items/level-groups assignment, summary recomputation, and the
final `merged["advice"] = local_advice`. -/
def mergeTail (lf adviceF : JsonFields) (rfRes remoteAdviceF : JsonFields)
    (items2 : JsonList) (applied : Nat) : Option Json :=
  let adviceF2 := mergeDiagnosis adviceF remoteAdviceF
  let lf2 :=
    match getKey rfRes "report" with
    | some (.obj (JsonFields.cons a b c)) =>
        if jsonHasCjk (.obj (.cons a b c)) then objSet lf "report" (.obj (.cons a b c)) else lf
    | _ => lf
  let adviceF3 := objSet adviceF2 "items" (.arr items2)
  match buildLevelGroups items2 with
  | none => none
  | some groups =>
      let adviceF4 := objSet adviceF3 "level_groups" (.obj groups)
      match sumGo items2 0 0 0 0 0 0 with
      | none => none
      | some (c1, c2, c3, c4, c5, savings) =>
          let keyRisks :=
            match getKey adviceF4 "diagnosis" with
            | some (.obj d) => getKeyD d "risks" (.arr .nil)
            | _ => .arr .nil
          let summary := Json.obj (toJF
            [ ("estimated_savings_bytes", .num savings)
            , ("level_counts", .obj (toJF
                [ ("L1", .num (c1 : Int)), ("L2", .num (c2 : Int)), ("L3", .num (c3 : Int))
                , ("L4", .num (c4 : Int)), ("L5", .num (c5 : Int)) ]))
            , ("key_risks", keyRisks)
            , ("remote_applied_items", .num (applied : Int)) ])
          some (.obj (objSet lf2 "advice" (.obj (objSet adviceF4 "summary" summary))))

/-- The remote advice dict (`remote_result.get("advice", \x7b\x7d)` guarded by
`isinstance`, src/core/ai_local_advisor.py:324). -/
def remoteAdviceOf (rfRes : JsonFields) : JsonFields :=
  match getKeyD rfRes "advice" (.obj .nil) with
  | .obj ra => ra
  | _ => .nil

/-- The merge body once the local item list is in hand
(src/core/ai_local_advisor.py:327-392). -/
def mergeWithItems (lf adviceF rfRes : JsonFields) (localItems : JsonList) : Option Json :=
  match
    (match getKey (remoteAdviceOf rfRes) "items" with
     | some (.arr remoteItems) => mergeLoop localItems remoteItems localItems 0
     | _ => some (localItems, 0)) with
  | none => none
  | some (items2, applied) =>
      mergeTail lf adviceF rfRes (remoteAdviceOf rfRes) items2 applied

/-- `merge_remote_into_local` (src/core/ai_local_advisor.py:301-392) on the
two result dicts (the unused `items` parameter of the source is dropped:
`del items`).  `none` models an exception escaping the Python function. -/
def merge_remote_into_local (localResult remoteResult : Json) : Option Json :=
  match remoteResult with
  | .obj rfRes =>
      (match localResult with
       | .obj lf =>
           (match getKey lf "advice" with
            | some (.obj adviceF) =>
                (match getKey adviceF "items" with
                 | some (.arr localItems) => mergeWithItems lf adviceF rfRes localItems
                 | none => mergeWithItems lf adviceF rfRes .nil
                 | some _ => some (.obj lf))
            | none =>
                (match getKey JsonFields.nil "items" with
                 | some (.arr localItems) => mergeWithItems lf .nil rfRes localItems
                 | none => mergeWithItems lf .nil rfRes .nil
                 | some _ => some (.obj lf))
            | some _ => none)
       | _ => none)
  | _ => some localResult

/-! ### C9: the merge never invents an advice record -/

/-- The identity of an advice record: its `item_id` and `target` members. -/
def itemKeyOf (it : Json) : Option Json × Option Json :=
  match it with
  | .obj fs => (getKey fs "item_id", getKey fs "target")
  | _ => (none, none)

/-- The record identities of an item list, in order. -/
def jlKeys : JsonList → List (Option Json × Option Json)
  | .nil => []
  | .cons it tl => itemKeyOf it :: jlKeys tl

/-- The advice item list of a result dict. -/
def itemsOf (j : Json) : JsonList :=
  match j with
  | .obj lf =>
      (match getKey lf "advice" with
       | some (.obj af) =>
           (match getKey af "items" with
            | some (.arr l) => l
            | _ => .nil)
       | _ => .nil)
  | _ => .nil

theorem mergeItemBase_keys (cf rf : JsonFields) :
    getKey (mergeItemBase cf rf) "item_id" = getKey cf "item_id" ∧
    getKey (mergeItemBase cf rf) "target" = getKey cf "target" := by
  unfold mergeItemBase
  constructor <;>
    rw [getKey_objSet_other _ _ _ _ (by decide), getKey_objSet_other _ _ _ _ (by decide),
      getKey_objSet_other _ _ _ _ (by decide), getKey_objSet_other _ _ _ _ (by decide),
      getKey_objSet_other _ _ _ _ (by decide), getKey_objSet_other _ _ _ _ (by decide)]

theorem mergeItem_keys (cf rf cf2 : JsonFields) (h : mergeItem cf rf = some cf2) :
    getKey cf2 "item_id" = getKey cf "item_id" ∧
    getKey cf2 "target" = getKey cf "target" := by
  unfold mergeItem at h
  cases he : getKey rf "estimated_savings_bytes" with
  | none =>
      rw [he] at h
      injection h with h'
      rw [← h']
      exact mergeItemBase_keys cf rf
  | some v =>
      rw [he] at h
      cases v with
      | null =>
          dsimp only [] at h
          injection h with h'
          rw [← h']
          exact mergeItemBase_keys cf rf
      | num n =>
          dsimp only [] at h
          cases hic : intCoerce (pyOr (.num n) (.num 0)) with
          | none => rw [hic] at h; exact absurd h (by simp)
          | some e =>
              rw [hic] at h
              injection h with h'
              rw [← h']
              rw [getKey_objSet_other _ _ _ _ (by decide),
                getKey_objSet_other _ _ _ _ (by decide)]
              exact mergeItemBase_keys cf rf
      | bool b =>
          dsimp only [] at h
          cases hic : intCoerce (pyOr (.bool b) (.num 0)) with
          | none => rw [hic] at h; exact absurd h (by simp)
          | some e =>
              rw [hic] at h
              injection h with h'
              rw [← h']
              rw [getKey_objSet_other _ _ _ _ (by decide),
                getKey_objSet_other _ _ _ _ (by decide)]
              exact mergeItemBase_keys cf rf
      | flo q =>
          dsimp only [] at h
          cases hic : intCoerce (pyOr (.flo q) (.num 0)) with
          | none => rw [hic] at h; exact absurd h (by simp)
          | some e =>
              rw [hic] at h
              injection h with h'
              rw [← h']
              rw [getKey_objSet_other _ _ _ _ (by decide),
                getKey_objSet_other _ _ _ _ (by decide)]
              exact mergeItemBase_keys cf rf
      | str s =>
          dsimp only [] at h
          cases hic : intCoerce (pyOr (.str s) (.num 0)) with
          | none => rw [hic] at h; exact absurd h (by simp)
          | some e =>
              rw [hic] at h
              injection h with h'
              rw [← h']
              rw [getKey_objSet_other _ _ _ _ (by decide),
                getKey_objSet_other _ _ _ _ (by decide)]
              exact mergeItemBase_keys cf rf
      | arr xs =>
          dsimp only [] at h
          cases hic : intCoerce (pyOr (.arr xs) (.num 0)) with
          | none => rw [hic] at h; exact absurd h (by simp)
          | some e =>
              rw [hic] at h
              injection h with h'
              rw [← h']
              rw [getKey_objSet_other _ _ _ _ (by decide),
                getKey_objSet_other _ _ _ _ (by decide)]
              exact mergeItemBase_keys cf rf
      | obj fs =>
          dsimp only [] at h
          cases hic : intCoerce (pyOr (.obj fs) (.num 0)) with
          | none => rw [hic] at h; exact absurd h (by simp)
          | some e =>
              rw [hic] at h
              injection h with h'
              rw [← h']
              rw [getKey_objSet_other _ _ _ _ (by decide),
                getKey_objSet_other _ _ _ _ (by decide)]
              exact mergeItemBase_keys cf rf

theorem jlKeys_set : ∀ (loc : JsonList) (i : Nat) (v w : Json),
    jlGet loc i = some w → itemKeyOf v = itemKeyOf w →
    jlKeys (jlSet loc i v) = jlKeys loc
  | .nil, i, v, w, h, _ => by simp [jlGet] at h
  | .cons x tl, 0, v, w, h, hk => by
      unfold jlGet at h
      injection h with h'
      subst h'
      unfold jlSet jlKeys
      rw [hk]
  | .cons x tl, n + 1, v, w, h, hk => by
      unfold jlGet at h
      unfold jlSet jlKeys
      rw [jlKeys_set tl n v w h hk]

theorem mergeLoop_keys : ∀ (remote : JsonList) (orig loc : JsonList) (ap : Nat)
    (loc2 : JsonList) (ap2 : Nat),
    mergeLoop orig remote loc ap = some (loc2, ap2) → jlKeys loc2 = jlKeys loc
  | .nil, orig, loc, ap, loc2, ap2, h => by
      unfold mergeLoop at h
      injection h with h'
      have h1 : loc = loc2 := congrArg Prod.fst h'
      rw [← h1]
  | .cons raw tl, orig, loc, ap, loc2, ap2, h => by
      unfold mergeLoop at h
      cases raw with
      | obj rf =>
          dsimp only [] at h
          cases hli : lookupIndex orig rf with
          | none =>
              rw [hli] at h
              exact mergeLoop_keys tl orig loc ap loc2 ap2 h
          | some i =>
              rw [hli] at h
              dsimp only [] at h
              cases hj : jlGet loc i with
              | none => rw [hj] at h; exact absurd h (by simp)
              | some w =>
                  rw [hj] at h
                  cases w with
                  | obj cf =>
                      dsimp only [] at h
                      cases hm : mergeItem cf rf with
                      | none => rw [hm] at h; exact absurd h (by simp)
                      | some cf2 =>
                          rw [hm] at h
                          dsimp only [] at h
                          have hrec := mergeLoop_keys tl orig
                            (jlSet loc i (.obj cf2)) (ap + 1) loc2 ap2 h
                          rw [hrec]
                          obtain ⟨k1, k2⟩ := mergeItem_keys cf rf cf2 hm
                          exact jlKeys_set loc i (.obj cf2) (.obj cf) hj
                            (by unfold itemKeyOf; dsimp only []; rw [k1, k2])
                  | null => dsimp only [] at h; exact absurd h (by simp)
                  | bool b => dsimp only [] at h; exact absurd h (by simp)
                  | num n => dsimp only [] at h; exact absurd h (by simp)
                  | flo q => dsimp only [] at h; exact absurd h (by simp)
                  | str s => dsimp only [] at h; exact absurd h (by simp)
                  | arr xs => dsimp only [] at h; exact absurd h (by simp)
      | null => exact mergeLoop_keys tl orig loc ap loc2 ap2 h
      | bool b => exact mergeLoop_keys tl orig loc ap loc2 ap2 h
      | num n => exact mergeLoop_keys tl orig loc ap loc2 ap2 h
      | flo q => exact mergeLoop_keys tl orig loc ap loc2 ap2 h
      | str s => exact mergeLoop_keys tl orig loc ap loc2 ap2 h
      | arr xs => exact mergeLoop_keys tl orig loc ap loc2 ap2 h

theorem mergeTail_items (lf adviceF rfRes ra : JsonFields) (items2 : JsonList) (ap : Nat)
    (m : Json) (h : mergeTail lf adviceF rfRes ra items2 ap = some m) :
    itemsOf m = items2 := by
  unfold mergeTail at h
  cases hg : buildLevelGroups items2 with
  | none => rw [hg] at h; exact absurd h (by simp)
  | some groups =>
      rw [hg] at h
      dsimp only [] at h
      cases hs : sumGo items2 0 0 0 0 0 0 with
      | none => rw [hs] at h; exact absurd h (by simp)
      | some t =>
          rw [hs] at h
          obtain ⟨c1, c2, c3, c4, c5, savings⟩ := t
          dsimp only [] at h
          injection h with h'
          rw [← h']
          unfold itemsOf
          dsimp only []
          rw [getKey_objSet_same]
          dsimp only []
          rw [getKey_objSet_other _ _ _ _ (by decide),
            getKey_objSet_other _ _ _ _ (by decide),
            getKey_objSet_same]

theorem mergeWithItems_items (lf adviceF rfRes : JsonFields) (localItems : JsonList)
    (m : Json) (h : mergeWithItems lf adviceF rfRes localItems = some m) :
    jlKeys (itemsOf m) = jlKeys localItems := by
  unfold mergeWithItems at h
  cases hrI : getKey (remoteAdviceOf rfRes) "items" with
  | none =>
      rw [hrI] at h
      dsimp only [] at h
      rw [mergeTail_items _ _ _ _ _ _ _ h]
  | some v =>
      rw [hrI] at h
      cases v with
      | arr remoteItems =>
          dsimp only [] at h
          cases hl : mergeLoop localItems remoteItems localItems 0 with
          | none => rw [hl] at h; exact absurd h (by simp)
          | some p =>
              rw [hl] at h
              obtain ⟨items2, applied⟩ := p
              dsimp only [] at h
              rw [mergeTail_items _ _ _ _ _ _ _ h]
              exact mergeLoop_keys remoteItems localItems localItems 0 items2 applied hl
      | null => dsimp only [] at h; rw [mergeTail_items _ _ _ _ _ _ _ h]
      | bool b => dsimp only [] at h; rw [mergeTail_items _ _ _ _ _ _ _ h]
      | num n => dsimp only [] at h; rw [mergeTail_items _ _ _ _ _ _ _ h]
      | flo q => dsimp only [] at h; rw [mergeTail_items _ _ _ _ _ _ _ h]
      | str s => dsimp only [] at h; rw [mergeTail_items _ _ _ _ _ _ _ h]
      | obj fs => dsimp only [] at h; rw [mergeTail_items _ _ _ _ _ _ _ h]

/-- C9: reconciliation never introduces an advice record without a local
counterpart.  Whenever `merge_remote_into_local` returns (does not raise), the
merged advice item list carries exactly the identities — `item_id` and
`target`, in order — of the local advice records: updated in place, never
added to, for every remote response. -/
theorem c9_merge_never_invents (l r m : Json)
    (h : merge_remote_into_local l r = some m) :
    jlKeys (itemsOf m) = jlKeys (itemsOf l) := by
  cases r with
  | obj rfRes =>
      cases l with
      | obj lf =>
          unfold merge_remote_into_local at h
          dsimp only [] at h
          cases hA : getKey lf "advice" with
          | none =>
              rw [hA] at h
              dsimp only [] at h
              have hm := mergeWithItems_items lf .nil rfRes .nil m h
              rw [hm]
              unfold itemsOf
              dsimp only []
              rw [hA]
          | some v =>
              rw [hA] at h
              cases v with
              | obj adviceF =>
                  dsimp only [] at h
                  cases hI : getKey adviceF "items" with
                  | none =>
                      rw [hI] at h
                      have hm := mergeWithItems_items lf adviceF rfRes .nil m h
                      rw [hm]
                      unfold itemsOf
                      dsimp only []
                      rw [hA]
                      dsimp only []
                      rw [hI]
                  | some w =>
                      rw [hI] at h
                      cases w with
                      | arr localItems =>
                          have hm := mergeWithItems_items lf adviceF rfRes localItems m h
                          rw [hm]
                          unfold itemsOf
                          dsimp only []
                          rw [hA]
                          dsimp only []
                          rw [hI]
                      | null =>
                          injection h with h'
                          rw [← h']
                      | bool b =>
                          injection h with h'
                          rw [← h']
                      | num n =>
                          injection h with h'
                          rw [← h']
                      | flo q =>
                          injection h with h'
                          rw [← h']
                      | str s =>
                          injection h with h'
                          rw [← h']
                      | obj fs =>
                          injection h with h'
                          rw [← h']
              | null => exact absurd h (by simp)
              | bool b => exact absurd h (by simp)
              | num n => exact absurd h (by simp)
              | flo q => exact absurd h (by simp)
              | str s => exact absurd h (by simp)
              | arr xs => exact absurd h (by simp)
      | null => exact absurd h (by simp [merge_remote_into_local])
      | bool b => exact absurd h (by simp [merge_remote_into_local])
      | num n => exact absurd h (by simp [merge_remote_into_local])
      | flo q => exact absurd h (by simp [merge_remote_into_local])
      | str s => exact absurd h (by simp [merge_remote_into_local])
      | arr xs => exact absurd h (by simp [merge_remote_into_local])
  | null => unfold merge_remote_into_local at h; injection h with h'; rw [← h']
  | bool b => unfold merge_remote_into_local at h; injection h with h'; rw [← h']
  | num n => unfold merge_remote_into_local at h; injection h with h'; rw [← h']
  | flo q => unfold merge_remote_into_local at h; injection h with h'; rw [← h']
  | str s => unfold merge_remote_into_local at h; injection h with h'; rw [← h']
  | arr xs => unfold merge_remote_into_local at h; injection h with h'; rw [← h']

/-- A concrete local analysis result: one advice item for the user temp
folder at L1. -/
def c9loc : Json :=
  .obj (toJF [("advice", .obj (toJF
    [ ("items", .arr (toJL
        [ .obj (toJF [("item_id", .num 1), ("target", .str "C:\\Users\\u\\AppData\\Local\\Temp"),
            ("level", .str "L1"), ("confidence", .flo (6/10)), ("reason", .str "temp files"),
            ("estimated_savings_bytes", .num 4096)]) ])) ]))])

/-- A concrete remote response updating that item to L2 with new confidence
and savings. -/
def c9rem : Json :=
  .obj (toJF [("advice", .obj (toJF
    [ ("items", .arr (toJL
        [ .obj (toJF [("item_id", .num 1), ("level", .str "L2"), ("confidence", .flo (9/10)),
            ("estimated_savings_bytes", .num 10240)]) ])) ]))])

/-- The merged result the embedding computes on that pair (checked against
the Python function on the same inputs). -/
def c9merged : Json := (merge_remote_into_local c9loc c9rem).getD .null

theorem c9_merge_never_invents_witness :
    merge_remote_into_local c9loc c9rem = some c9merged ∧
    jlKeys (itemsOf c9merged) = jlKeys (itemsOf c9loc) :=
  ⟨rfl, c9_merge_never_invents c9loc c9rem c9merged rfl⟩

end Spec2Proof
